import Mathlib

/-!
# Guardian WAF: request checker and the le operator

A shallow embedding of `request/checker.go` and `waf/operators/le.go`.

Conventions of the embedding.

* Go strings are Lean strings; the byte-level functions of the Go standard
  library that the code uses (`strings.Contains`, `strings.HasSuffix`,
  `strings.HasPrefix`, `filepath.Ext`, `strconv.Atoi`) are written over the
  character list of the string.
* A Go panic is the error side of `Except Panic`.
* Go maps are association lists, listed in the order in which the `range`
  statement visits them.
* Library calls whose code is outside the two source files (the pattern
  matcher `models.IsMatch`, `models.UnEscapeRawValue`, `gval.Evaluate`, the
  parsers of `net/http`, `mime`, `mime/multipart` and `encoding/json`, the
  rule repository) are fields of the structure `Env`.
* Every call of a run is recorded in its trace (`Event`): matcher calls,
  rule fetches and evaluations, writes to the response, log entries. What a
  function did not call is what its trace does not hold.
* The workers of a phase are goroutines. Their runs are listed in spawn
  order; the verdict of a phase reads only whether some result is matched,
  which does not depend on the order in which the results arrive on the
  channel. The log entry names the first matched result in spawn order,
  where the code names the first to arrive. A panic in a worker ends the
  process: the run of the phase is then that panic.
* Whether the three-minute timer of a phase fires before its workers are
  done is a boolean of `Env`.
-/

namespace Guardian

/-! ## Go runtime values and panics -/

/-- The run-time panics the two source files can raise. -/
inductive Panic where
  /-- A type assertion `x.(T)` without the comma-ok form on a value of another type. -/
  | typeAssertion
  /-- A method call through a nil pointer or nil interface. -/
  | nilDereference
  /-- The call `panic(err)` after `json.Unmarshal` failed. -/
  | jsonUnmarshal
  /-- The call `panic("failed to execute rules.")` after `time.After` fired. -/
  | deadline
  deriving DecidableEq, Repr

deriving instance DecidableEq for Except

/-- A Go `interface{}` value, as far as the code inspects its dynamic type. -/
inductive Value where
  | nil
  | bool (b : Bool)
  | int (n : Int)
  | str (s : String)
  /-- Any other dynamic type (float64, map, slice, ...). -/
  | other
  deriving DecidableEq, Repr

/-! ## strconv.Atoi (64-bit int) -/

/-- The two errors of `strconv`: `ErrSyntax` and `ErrRange`. -/
inductive NumError where
  | syntaxErr
  | rangeErr
  deriving DecidableEq, Repr

/-- The loop `ch -= 48; if ch > 9 then syntax error; n = n*10 + ch` over the digits. -/
def parseDigits : List Char → Nat → Option Nat
  | [], acc => some acc
  | c :: cs, acc =>
    if 48 ≤ c.toNat ∧ c.toNat ≤ 57 then parseDigits cs (acc * 10 + (c.toNat - 48)) else none

/-- Go's `strconv.Atoi` for a 64-bit `int`: an optional sign, then one or more
decimal digits, the value within `[-2^63, 2^63 - 1]`. Returns the Go pair
`(value, error)`; on a range error the value is the nearest bound. -/
def Atoi (s : String) : Int × Option NumError :=
  let neg : Bool := s.data.head? = some '-'
  let body : List Char :=
    match s.data with
    | '-' :: cs => cs
    | '+' :: cs => cs
    | cs => cs
  match body with
  | [] => (0, some .syntaxErr)
  | _ :: _ =>
    match parseDigits body 0 with
    | none => (0, some .syntaxErr)
    | some n =>
      if neg then
        if n > 2 ^ 63 then (-(2 ^ 63), some .rangeErr) else (-(n : Int), none)
      else
        if n ≥ 2 ^ 63 then (2 ^ 63 - 1, some .rangeErr) else ((n : Int), none)

/-! ## waf/operators/le.go -/

namespace operators

/-- The function registered as `OperatorMaps.funcMap["le"]`. -/
def le (expression variableData : Value) : Except Panic Bool :=
  match expression with
  | .str e =>
    let (expInt, errExpr) := Atoi e
    let (varInt, errVar) : Int × Option NumError :=
      match variableData with
      | .str v => Atoi v
      | .int v => (v, none)
      | _ => (0, none)
    if errExpr ≠ none ∨ errVar ≠ none then
      .ok false
    else
      .ok (decide (varInt ≤ expInt))
  | _ => .error .typeAssertion

/-- The integer an operand stands for: an int is itself, a string is what
`strconv.Atoi` parses it to, when it parses. -/
def operandInt : Value → Option Int
  | .int n => some n
  | .str s => if (Atoi s).2 = none then some (Atoi s).1 else none
  | _ => none

end operators

/-! ## Go standard library helpers used by the checker -/

/-- Go's `strings.Contains`. -/
def stringsContains (s substr : String) : Bool := decide (substr.data <:+: s.data)

/-- Go's `strings.HasSuffix`. -/
def stringsHasSuffix (s suffix : String) : Bool := decide (suffix.data <:+ s.data)

/-- Go's `strings.HasPrefix`. -/
def stringsHasPrefixOf (s pre : String) : Bool := decide (pre.data <+: s.data)

/-- The backwards scan of `filepath.Ext` over the reversed path: stop at a
path separator, return the suffix that starts at the first dot met. -/
def extScan : List Char → List Char → List Char
  | [], _ => []
  | c :: cs, acc =>
    if c = '/' then [] else if c = '.' then '.' :: acc else extScan cs (c :: acc)

/-- Go's `filepath.Ext`: the suffix beginning at the final dot in the final
element of the path, empty if there is no dot. -/
def filepathExt (path : String) : String := String.mk (extScan path.data.reverse [])

/-! ## Data model (package models and net/http) -/

/-- One detection rule (`models.PayloadData`). -/
structure PayloadData where
  CheckPoint : String
  Payload : String
  deriving DecidableEq, Repr

/-- One target-scoped firewall rule (`models.FirewallRule`). -/
structure FirewallRule where
  ID : Nat
  TargetID : Nat
  Expression : String
  deriving DecidableEq, Repr

/-- The protected site (`models.Target`). -/
structure Target where
  ID : Nat
  WAFEnabled : Bool
  deriving DecidableEq, Repr

/-- Modelled from the spec: `models.MatchResult`, whose declaration is not in the
source files: the matched PayloadData (present only when matched), the matched
flag and a timestamp. -/
structure MatchResult where
  MatchedPayload : Option PayloadData
  IsMatched : Bool
  Timestamp : Option Nat
  deriving DecidableEq, Repr

/-- Modelled from the spec: `models.NewMatchResult(payload, isMatched)`, not in the
source files; it stores its two arguments. -/
def NewMatchResult (payload : Option PayloadData) (isMatched : Bool) : MatchResult :=
  ⟨payload, isMatched, none⟩

/-- Modelled from the spec: the method `MatchResult.Time(t)`, not in the source
files; it records the time on the result and returns it. -/
def MatchResult.Time (m : MatchResult) (t : Nat) : MatchResult :=
  { m with Timestamp := some t }

/-- Modelled from the spec: `models.FirewallMatchResult`, the same shape as
MatchResult, referencing a firewall rule. -/
structure FirewallMatchResult where
  MatchedRule : Option FirewallRule
  IsMatched : Bool
  Timestamp : Option Nat
  deriving DecidableEq, Repr

/-- Modelled from the spec: `models.NewFirewallMatchResult(rule, isMatched)`. -/
def NewFirewallMatchResult (rule : Option FirewallRule) (isMatched : Bool) :
    FirewallMatchResult :=
  ⟨rule, isMatched, none⟩

/-- Modelled from the spec: the method `FirewallMatchResult.Time(t)`. -/
def FirewallMatchResult.Time (m : FirewallMatchResult) (t : Nat) : FirewallMatchResult :=
  { m with Timestamp := some t }

/-- Modelled from the spec: `models.Filter(collection, pred)`, not in the source
files: the elements of the collection that satisfy the predicate, in order. -/
def Filter (collection : List PayloadData) (pred : PayloadData → Bool) : List PayloadData :=
  collection.filter pred

/-- Go's `url.Values` and `http.Header`: key to list of values, in visiting order. -/
abbrev Values := List (String × List String)

/-- The fields of `url.URL` the checker reads. -/
structure URL where
  Path : String
  RawPath : String
  RawQuery : String
  Host : String
  deriving DecidableEq, Repr

/-- The parts of `http.Request` the checker reads. `Body` is what
`ioutil.ReadAll(r.Request.Body)` yields; `Form` is `r.Request.Form` as it stands
when `Handle` is called (nil is the empty list). -/
structure Request where
  Method : String
  URL : URL
  Proto : String
  RemoteAddr : String
  Header : Values
  Cookies : List (String × String)
  Body : String
  Form : Values
  deriving DecidableEq, Repr

/-- A `multipart.FileHeader`. -/
structure FileHeader where
  Filename : String
  deriving DecidableEq, Repr

/-- A `multipart.Form`: the `File` map, key to file headers, in visiting order. -/
structure MultipartForm where
  File : List (String × List FileHeader)
  deriving DecidableEq, Repr

/-- One `multiReader.NextPart()` before `io.EOF`: a part with its content, or
an error other than `io.EOF` (then the part is nil). -/
inductive PartRead where
  | part (content : String)
  | failed
  deriving DecidableEq, Repr

/-- What `json.Unmarshal` stores into an `interface{}`. A mapping lists its
entries in the order `range` visits them. -/
inductive JSONValue where
  | null
  | bool (b : Bool)
  | number (literal : String)
  | string (s : String)
  | array (elems : List JSONValue)
  | object (entries : List (String × JSONValue))

/-- The fact map `mapForFwRules` handed to the expression evaluator. -/
structure Facts where
  ip_src : String
  http_query : String
  http_path : String
  http_host : String
  http_cookie : String
  http_header : String
  http_method : String
  http_protocol : String
  deriving DecidableEq, Repr

/-- The `requestTransfer` struct. -/
structure requestTransfer where
  BodyBuffer : String
  ContentType : String
  deriving DecidableEq, Repr

/-- The `Checker` struct. The response writer and the result channels are
part of the run (see `Event`), not of this record. -/
structure Checker where
  Request : Request
  Target : Target
  requestTransfer : Option requestTransfer
  time : Nat
  deriving DecidableEq, Repr

/-- Everything the checker calls that lies outside the two source files:
the global collections and helpers of package models, the rule repository,
the expression evaluator, the parsers of the Go standard library, and whether
the three-minute timer of a phase fires before its workers are done. A Go
`error` is `Option String`, nil being `none`. -/
structure Env where
  /-- The call `models.IsMatch(pattern, value)`: the pair `(isMatch, err)`. -/
  IsMatch : String → String → Bool × Option String
  /-- The call `models.UnEscapeRawValue(value)`. -/
  UnEscapeRawValue : String → String
  /-- The global `models.PayloadDataCollection`. -/
  PayloadDataCollection : List PayloadData
  /-- The global `models.CheckPointPayloadData`, checkpoint name to rules. -/
  CheckPointPayloadData : List (String × List PayloadData)
  /-- The call `models.CookiesToString(r.Request.Cookies())`. -/
  CookiesToString : List (String × String) → String
  /-- The call `models.HeadersToString(r.Request.Header)`. -/
  HeadersToString : Values → String
  /-- The call `db.GetFirewallRules(targetID)`. -/
  GetFirewallRules : Nat → List FirewallRule
  /-- The call `gval.Evaluate(expression, facts)`: the pair `(value, err)`. -/
  Evaluate : String → Facts → Value × Option String
  /-- The call `Header.Get(key)`. -/
  HeaderGet : Values → String → String
  /-- The call `mime.ParseMediaType(v)`: the media type and the boundary parameter. -/
  ParseMediaType : String → String × String
  /-- The call `r.Request.ParseMultipartForm(1024)`: the resulting
  `r.Request.MultipartForm` (nil is `none`) and `r.Request.Form`. -/
  ParseMultipartForm : Request → Option MultipartForm × Values
  /-- The parts `multipart.NewReader(body, boundary)` yields before `io.EOF`. -/
  MultipartParts : String → String → List PartRead
  /-- The call `json.Unmarshal(body, &params)`: `none` when it returns an error. -/
  Unmarshal : String → Option JSONValue
  /-- The call `r.Request.ParseForm()`: the resulting `r.Request.Form`. -/
  ParseForm : Request → Values
  /-- Does `time.After` fire before the payload workers are done. -/
  payloadDeadline : Bool
  /-- Does `time.After` fire before the firewall workers are done. -/
  firewallDeadline : Bool

/-! ## Runs: calls made, panics, early returns -/

/-- The observable calls of a run, in program order (the calls of concurrent
workers are listed worker by worker, in spawn order). -/
inductive Event where
  | isMatch (pattern value : String)
  | evaluate (expression : String)
  | getFirewallRules (targetID : Nat)
  | writeHeader (code : Nat)
  | write (body : String)
  | logMatchResult (m : MatchResult)
  | logFirewallMatchResult (m : FirewallMatchResult)
  | println (line : String)
  deriving DecidableEq, Repr

/-- A function call that has run: its value or panic, and the calls it made. -/
structure Result (β : Type) where
  value : Except Panic β
  trace : List Event

/-- A block of statements inside a function body that has run: it panicked,
it returned `some b` from the enclosing function, or it fell through to the
next statement (`none`); and the calls it made. -/
structure Flow (β : Type) where
  outcome : Except Panic (Option β)
  trace : List Event

instance {β : Type} [DecidableEq β] : DecidableEq (Result β) := fun a b =>
  match a, b with
  | ⟨v, t⟩, ⟨w, u⟩ =>
    if h : v = w ∧ t = u then isTrue (by rw [h.1, h.2])
    else isFalse (fun e => h (by cases e; exact ⟨rfl, rfl⟩))

instance {β : Type} [DecidableEq β] : DecidableEq (Flow β) := fun a b =>
  match a, b with
  | ⟨v, t⟩, ⟨w, u⟩ =>
    if h : v = w ∧ t = u then isTrue (by rw [h.1, h.2])
    else isFalse (fun e => h (by cases e; exact ⟨rfl, rfl⟩))

/-- Fall through, no call made. -/
def Flow.fall {β : Type} : Flow β := ⟨.ok none, []⟩

/-- The statement `return b`. -/
def Flow.ret {β : Type} (b : β) : Flow β := ⟨.ok (some b), []⟩

/-- A panic. -/
def Flow.panic {β : Type} (p : Panic) : Flow β := ⟨.error p, []⟩

/-- A call that is made for its effect only. -/
def Flow.emit {β : Type} (e : Event) : Flow β := ⟨.ok none, [e]⟩

/-- Sequencing `a; b`: `b` runs only when `a` falls through. -/
def Flow.next {β : Type} (a b : Flow β) : Flow β :=
  match a.outcome with
  | .ok none => ⟨b.outcome, a.trace ++ b.trace⟩
  | _ => a

/-- The loop `for _, x := range xs { body }`. -/
def forRange {α β : Type} : List α → (α → Flow β) → Flow β
  | [], _ => .fall
  | x :: xs, body => (body x).next (forRange xs body)

/-- Use the value of a call in the statements that follow it. -/
def Result.andThen {γ β : Type} (r : Result γ) (k : γ → Flow β) : Flow β :=
  match r.value with
  | .error p => ⟨.error p, r.trace⟩
  | .ok v => ⟨(k v).outcome, r.trace ++ (k v).trace⟩

/-- A function body `a; return last`. -/
def Flow.orReturn {β : Type} (a : Flow β) (last : β) : Result β :=
  match a.outcome with
  | .ok none => ⟨.ok last, a.trace⟩
  | .ok (some b) => ⟨.ok b, a.trace⟩
  | .error p => ⟨.error p, a.trace⟩

/-- A call followed by the rest of the function body, which uses its value. -/
def Result.bind {γ β : Type} (r : Result γ) (k : γ → Result β) : Result β :=
  match r.value with
  | .error p => ⟨.error p, r.trace⟩
  | .ok v => ⟨(k v).value, r.trace ++ (k v).trace⟩

/-- Wait for the spawned workers: their values in spawn order, or the panic of
the first worker that panicked. -/
def joinWorkers {β : Type} : List (Result β) → Result (List β)
  | [] => ⟨.ok [], []⟩
  | w :: ws =>
    match w.value, (joinWorkers ws).value with
    | .error p, _ => ⟨.error p, w.trace ++ (joinWorkers ws).trace⟩
    | .ok _, .error p => ⟨.error p, w.trace ++ (joinWorkers ws).trace⟩
    | .ok v, .ok vs => ⟨.ok (v :: vs), w.trace ++ (joinWorkers ws).trace⟩

/-! ## request/checker.go -/

/-- The variable `staticSuffix`. -/
def staticSuffix : List String := [".js", ".css", ".png", ".jpg", ".gif", ".bmp", ".svg", ".ico"]

/-- The method `Checker.IsStaticResource`. -/
def IsStaticResource (url : String) : Bool :=
  if stringsContains url "?" then false
  else staticSuffix.any fun suffix => stringsHasSuffix url suffix

/-- The two statements every pattern loop of the checker repeats:
`isMatch, _ := models.IsMatch(p.Payload, value)` and
`if isMatch then return models.NewMatchResult(&p, true).Time(r.time)`. -/
def tryPayload (E : Env) (time : Nat) (value : String) (p : PayloadData) : Flow MatchResult :=
  ⟨.ok (if (E.IsMatch p.Payload value).1 then some ((NewMatchResult (some p) true).Time time)
        else none),
   [.isMatch p.Payload value]⟩

/-- The method `Checker.handleQuery`. -/
def handleQuery (E : Env) (r : Checker) (payloads : List PayloadData) : Result MatchResult :=
  (forRange payloads fun p =>
      tryPayload E r.time (E.UnEscapeRawValue r.Request.URL.RawQuery) p).orReturn
    (NewMatchResult none false)

/-- The method `Checker.handlePath`. -/
def handlePath (E : Env) (r : Checker) (payloads : List PayloadData) : Result MatchResult :=
  (forRange payloads fun p => tryPayload E r.time r.Request.URL.Path p).orReturn
    (NewMatchResult none false)

mutual
/-- The method `Checker.isJSONValueHitPolicy`. `reflect.TypeOf(nil)` is nil, so
`.Kind()` on it panics. -/
def isJSONValueHitPolicy (E : Env) (time : Nat) (payloads : List PayloadData) :
    JSONValue → Result MatchResult
  | .null => ⟨.error .nilDereference, []⟩
  | .string value2 =>
    (forRange payloads fun p => tryPayload E time (E.UnEscapeRawValue value2) p).orReturn
      (NewMatchResult none false)
  | .object value2 => (rangeObject E time payloads value2).orReturn (NewMatchResult none false)
  | .array value2 => (rangeArray E time payloads value2).orReturn (NewMatchResult none false)
  | .bool _ => ⟨.ok (NewMatchResult none false), []⟩
  | .number _ => ⟨.ok (NewMatchResult none false), []⟩
/-- The loop over the values of a mapping inside `isJSONValueHitPolicy`. -/
def rangeObject (E : Env) (time : Nat) (payloads : List PayloadData) :
    List (String × JSONValue) → Flow MatchResult
  | [] => .fall
  | (_, subValue) :: rest =>
    ((isJSONValueHitPolicy E time payloads subValue).andThen fun matched =>
        if matched.IsMatched then .ret matched else .fall).next
      (rangeObject E time payloads rest)
/-- The loop over the elements of a slice inside `isJSONValueHitPolicy`. -/
def rangeArray (E : Env) (time : Nat) (payloads : List PayloadData) :
    List JSONValue → Flow MatchResult
  | [] => .fall
  | subValue :: rest =>
    ((isJSONValueHitPolicy E time payloads subValue).andThen fun result =>
        if result.IsMatched then .ret result else .fall).next
      (rangeArray E time payloads rest)
end

/-- The pattern `^\d{1,5}$` that exempts short all-digit form values. -/
def digitPattern : String := "^\\d\x7b1,5\x7d$"

/-- The upload check of `handleForm`: every file header of the multipart form,
its extension against the rules of the Upload checkpoint. -/
def uploadLoop (E : Env) (r : Checker) (form : MultipartForm) : Flow MatchResult :=
  forRange form.File fun entry =>
    forRange entry.2 fun fileHeader =>
      let fileExtension := filepathExt fileHeader.Filename
      let uploadCheck :=
        Filter E.PayloadDataCollection fun p => decide (p.CheckPoint = "Upload")
      forRange uploadCheck fun p => tryPayload E r.time fileExtension p

/-- The multipart content loop of `handleForm`. After an error other than
`io.EOF` the part is nil and `ioutil.ReadAll(p)` dereferences it. -/
def partsLoop (E : Env) (r : Checker) (payloads : List PayloadData) (parts : List PartRead) :
    Flow MatchResult :=
  forRange parts fun part =>
    match part with
    | .failed => .panic .nilDereference
    | .part partContent =>
      forRange payloads fun p => tryPayload E r.time (E.UnEscapeRawValue partContent) p

/-- The loop over `r.Request.Form` that ends `handleForm`. -/
def formLoop (E : Env) (r : Checker) (payloads : List PayloadData) (params : Values) :
    Flow MatchResult :=
  forRange params fun entry =>
    (forRange payloads fun p => tryPayload E r.time entry.1 p).next
      (forRange entry.2 fun value =>
        (Flow.emit (.isMatch digitPattern value)).next
          (if (E.IsMatch digitPattern value).2 = none ∧ (E.IsMatch digitPattern value).1 = true then
            .fall
          else
            (forRange payloads fun p => tryPayload E r.time value p).next
              (.ret (NewMatchResult none false))))

/-- The method `Checker.handleForm`. -/
def handleForm (E : Env) (r : Checker) (payloads : List PayloadData) : Result MatchResult :=
  match r.requestTransfer with
  | none => ⟨.error .nilDereference, []⟩
  | some transfer =>
    let media := E.ParseMediaType transfer.ContentType
    let branch : Flow MatchResult × Values :=
      if stringsHasPrefixOf media.1 "multipart/form-data" then
        let parsed := E.ParseMultipartForm r.Request
        (match parsed.1 with
          | some form =>
            (uploadLoop E r form).next
              (partsLoop E r payloads (E.MultipartParts transfer.BodyBuffer media.2))
          | none => .fall,
         parsed.2)
      else if stringsHasPrefixOf media.1 "application/json" then
        (match E.Unmarshal transfer.BodyBuffer with
          | none => .panic .jsonUnmarshal
          | some params =>
            (isJSONValueHitPolicy E r.time payloads params).andThen fun result =>
              if result.IsMatched then .ret result else .fall,
         r.Request.Form)
      else
        (.fall, E.ParseForm r.Request)
    (branch.1.next (formLoop E r payloads branch.2)).orReturn (NewMatchResult none false)

/-- The method `Checker.handlePayload`: the result it sends on `r.result`. -/
def handlePayload (E : Env) (r : Checker) (key : String) (payloads : List PayloadData) :
    Result MatchResult :=
  if key = "Query" then handleQuery E r payloads
  else if key = "Path" then handlePath E r payloads
  else if key = "Form" then handleForm E r payloads
  else if key = "Upload" then ⟨.ok (NewMatchResult none false), []⟩
  else ⟨.ok (NewMatchResult none false), []⟩

/-- The statements that block the request: status 400 and the body
`"Bad Request. " + path`. -/
def writeBlock {β : Type} (r : Checker) : Flow β :=
  (Flow.emit (.writeHeader 400)).next (Flow.emit (.write ("Bad Request. " ++ r.Request.URL.Path)))

/-- The results the payload workers send on `r.result`: one `handlePayload` per
entry of `models.CheckPointPayloadData`. Modelled from the spec: the constant
`models.LenOfGroupedPayloadDataCollection`, not in the source files, is the
number of these entries, so that the wait group and the channel fit them. -/
def payloadResults (E : Env) (r : Checker) : Result (List MatchResult) :=
  joinWorkers (E.CheckPointPayloadData.map fun entry => handlePayload E r entry.1 entry.2)

/-- The method `Checker.handleWAFChecker`. -/
def handleWAFChecker (E : Env) (r : Checker) : Result Bool :=
  ((payloadResults E r).andThen fun results =>
      if E.payloadDeadline then .panic .deadline
      else
        (Flow.emit (.println "true")).next
          (forRange results fun i =>
            if i.IsMatched then
              (writeBlock r).next ((Flow.emit (.logMatchResult i)).next (.ret true))
            else .fall)).orReturn false

/-- The map `mapForFwRules`. -/
def mapForFwRules (E : Env) (r : Checker) : Facts where
  ip_src := r.Request.RemoteAddr
  http_query := r.Request.URL.RawQuery
  http_path := r.Request.URL.RawPath
  http_host := r.Request.URL.Host
  http_cookie := E.CookiesToString r.Request.Cookies
  http_header := E.HeadersToString r.Request.Header
  http_method := r.Request.Method
  http_protocol := r.Request.Proto

/-- The method `Checker.handleFirewallPayload`: the result it sends on
`r.firewallResult`. The type assertion `evalResult.(bool)` panics on
anything that is not a bool, nil included. -/
def handleFirewallPayload (E : Env) (r : Checker) (rule : FirewallRule) (facts : Facts) :
    Result FirewallMatchResult :=
  let evaluated := E.Evaluate rule.Expression facts
  let trace : List Event :=
    .evaluate rule.Expression ::
      (match evaluated.2 with
        | some everr => [.println everr]
        | none => [])
  match evaluated.1 with
  | .bool true => ⟨.ok ((NewFirewallMatchResult (some rule) true).Time r.time), trace⟩
  | .bool false => ⟨.ok (NewFirewallMatchResult none false), trace⟩
  | _ => ⟨.error .typeAssertion, trace⟩

/-- The results the firewall workers send on `r.firewallResult`. -/
def firewallResults (E : Env) (r : Checker) : Result (List FirewallMatchResult) :=
  joinWorkers ((E.GetFirewallRules r.Target.ID).map fun rule =>
    handleFirewallPayload E r rule (mapForFwRules E r))

/-- The method `Checker.handleFirewallRuleChecker`. -/
def handleFirewallRuleChecker (E : Env) (r : Checker) : Result Bool :=
  ((Flow.emit (.getFirewallRules r.Target.ID)).next
    ((firewallResults E r).andThen fun results =>
      if E.firewallDeadline then .panic .deadline
      else
        (Flow.emit (.println "true")).next
          (forRange results fun i =>
            if i.IsMatched then
              (writeBlock r).next ((Flow.emit (.logFirewallMatchResult i)).next (.ret true))
            else .fall))).orReturn false

/-- The method `Checker.Handle`. -/
def Handle (E : Env) (r : Checker) : Result Bool :=
  if !r.Target.WAFEnabled || (decide (r.Request.Method = "GET") && IsStaticResource r.Request.URL.Path) then
    ⟨.ok false, []⟩
  else
    let bodyBuffer := r.Request.Body
    let r : Checker :=
      { r with requestTransfer := some ⟨bodyBuffer, E.HeaderGet r.Request.Header "Content-Type"⟩ }
    (handleWAFChecker E r).bind fun result =>
      if result then ⟨.ok true, []⟩ else handleFirewallRuleChecker E r

/-- The constructor `NewRequestChecker`. -/
def NewRequestChecker (req : Request) (target : Target) (now : Nat) : Checker :=
  ⟨req, target, none, now⟩

/-! ## Vocabulary of the statements -/

/-- Does rule `p` match the value, as the checker reads `models.IsMatch`. -/
def hits (E : Env) (value : String) (p : PayloadData) : Bool := (E.IsMatch p.Payload value).1

/-- The result the checker builds for a matched rule. -/
def matchedResult (time : Nat) (p : PayloadData) : MatchResult :=
  (NewMatchResult (some p) true).Time time

mutual
/-- A parsed JSON value built from strings, numbers, booleans, lists and
mappings only: no null at any depth. -/
def nullFree : JSONValue → Bool
  | .null => false
  | .bool _ => true
  | .number _ => true
  | .string _ => true
  | .array elems => nullFreeElems elems
  | .object entries => nullFreeEntries entries
/-- No null in the elements of a list. -/
def nullFreeElems : List JSONValue → Bool
  | [] => true
  | v :: rest => nullFree v && nullFreeElems rest
/-- No null in the values of a mapping. -/
def nullFreeEntries : List (String × JSONValue) → Bool
  | [] => true
  | (_, v) :: rest => nullFree v && nullFreeEntries rest
end

mutual
/-- The string leaves of a parsed JSON value, in visiting order: the strings
reached through list elements and mapping values (not mapping keys). -/
def stringLeaves : JSONValue → List String
  | .null => []
  | .bool _ => []
  | .number _ => []
  | .string s => [s]
  | .array elems => stringLeavesElems elems
  | .object entries => stringLeavesEntries entries
/-- The string leaves under the elements of a list. -/
def stringLeavesElems : List JSONValue → List String
  | [] => []
  | v :: rest => stringLeaves v ++ stringLeavesElems rest
/-- The string leaves under the values of a mapping. -/
def stringLeavesEntries : List (String × JSONValue) → List String
  | [] => []
  | (_, v) :: rest => stringLeaves v ++ stringLeavesEntries rest
end

/-- The first rule, in list order, that matches the first string of the list
that any rule matches, after unescaping. -/
def firstLeafHit (E : Env) (payloads : List PayloadData) (leaves : List String) :
    Option PayloadData :=
  leaves.findSome? fun s => payloads.find? (hits E (E.UnEscapeRawValue s))

/-- The result a worker builds from the rule it found, if any. -/
def resultOfHit (time : Nat) : Option PayloadData → MatchResult
  | some p => matchedResult time p
  | none => NewMatchResult none false

/-- The block does not panic. -/
def Flow.NoPanic {β : Type} (a : Flow β) : Prop := ∀ p, a.outcome ≠ .error p

/-- Every value the block returns from the function satisfies `S`. -/
def Flow.ReturnsOnly {β : Type} (S : β → Prop) (a : Flow β) : Prop :=
  ∀ b, a.outcome = .ok (some b) → S b

/-- A file header of the multipart form. -/
def MultipartForm.hasFile (form : MultipartForm) (fileHeader : FileHeader) : Prop :=
  ∃ key files, (key, files) ∈ form.File ∧ fileHeader ∈ files

/-- A rule of the global collection tagged with the Upload checkpoint. -/
def isUploadRule (E : Env) (p : PayloadData) : Prop :=
  p ∈ E.PayloadDataCollection ∧ p.CheckPoint = "Upload"

/-- The checker as `Handle` hands it to the workers: the body and the content
type stored in `requestTransfer`. -/
def snapshot (E : Env) (r : Checker) : Checker :=
  { r with requestTransfer := some ⟨r.Request.Body, E.HeaderGet r.Request.Header "Content-Type"⟩ }

/-- A write to the response: `WriteHeader` or a body write. -/
def Event.isResponse : Event → Bool
  | .writeHeader _ => true
  | .write _ => true
  | _ => false

/-- A call of the firewall phase: fetching the rules or evaluating one. -/
def Event.isFirewall : Event → Bool
  | .getFirewallRules _ => true
  | .evaluate _ => true
  | _ => false

/-- A call of the pattern matcher. -/
def Event.isMatcher : Event → Bool
  | .isMatch _ _ => true
  | _ => false

/-- The two writes of a block response for the request of the checker. -/
def blockResponse (r : Checker) : List Event :=
  [.writeHeader 400, .write ("Bad Request. " ++ r.Request.URL.Path)]

/-- The calls of the loop over the results of a phase: the block response and
the log entry for the first matched result, if there is one. -/
def blockTrace {α : Type} (r : Checker) (log : α → Event) : Option α → List Event
  | some i => blockResponse r ++ [log i]
  | none => []

/-! ## Worked examples: environment and requests -/

/-- A matcher for the worked examples: the digit pattern holds of the strings
of one to five decimal digits; every other pattern is read literally and
matches the values that contain it. -/
def exampleIsMatch (pattern value : String) : Bool × Option String :=
  if pattern = digitPattern then
    (decide (1 ≤ value.data.length ∧ value.data.length ≤ 5) && value.data.all Char.isDigit, none)
  else
    (stringsContains value pattern, none)

/-- The expression evaluator on the three expressions of the worked examples:
a comparison of the method, which yields a bool; a sum, which yields a
number; and anything else taken as the malformed `http.method ==`, for which
`gval.Evaluate` returns nil and an error. -/
def exampleEvaluate (expression : String) (facts : Facts) : Value × Option String :=
  if expression = "http.method == \"DELETE\"" then
    (.bool (decide (facts.http_method = "DELETE")), none)
  else if expression = "1 + 2" then
    (.other, none)
  else
    (.nil, some "parsing error")

/-- The environment of the worked examples: no rules, no escapes in the
values, parsers that find nothing, timers that do not fire. Each example overrides
the fields it needs with what the library returns on its input. -/
def exampleEnv : Env where
  IsMatch := exampleIsMatch
  UnEscapeRawValue := fun s => s
  PayloadDataCollection := []
  CheckPointPayloadData := []
  CookiesToString := fun _ => ""
  HeadersToString := fun _ => ""
  GetFirewallRules := fun _ => []
  Evaluate := exampleEvaluate
  HeaderGet := fun header key => ((header.lookup key).bind List.head?).getD ""
  ParseMediaType := fun v => (v, "")
  ParseMultipartForm := fun req => (none, req.Form)
  MultipartParts := fun _ _ => []
  Unmarshal := fun _ => none
  ParseForm := fun req => req.Form
  payloadDeadline := false
  firewallDeadline := false

/-- The target of the worked examples: WAF enabled. -/
def exampleTarget : Target := ⟨1, true⟩

/-- A request of the worked examples. -/
def exampleRequest (method path rawQuery contentType body : String) : Request where
  Method := method
  URL := ⟨path, "", rawQuery, "shop.example"⟩
  Proto := "HTTP/1.1"
  RemoteAddr := "203.0.113.7:50000"
  Header := [("Content-Type", [contentType])]
  Cookies := []
  Body := body
  Form := []

/-- The example environment with Form rules, in which `ParseForm` yields the
given fields in the given visiting order. -/
def formEnv (fields : Values) : Env :=
  { exampleEnv with ParseForm := fun _ => fields }

/-- An environment with the given payload rules, grouped by checkpoint, and the
given firewall rules for every target. -/
def configuredEnv (groups : List (String × List PayloadData)) (rules : List FirewallRule)
    (E : Env) : Env :=
  { E with
    CheckPointPayloadData := groups
    PayloadDataCollection := (groups.map fun entry => entry.2).flatten
    GetFirewallRules := fun _ => rules }

/-- The example environment in which `json.Unmarshal` yields the given value,
or fails (`none`). -/
def jsonEnv (parsed : Option JSONValue) : Env :=
  { exampleEnv with Unmarshal := fun _ => parsed }

/-- The example environment of a multipart upload: one Upload rule for the
extension .php and one Form rule, the media type multipart/form-data with
boundary X, and a parsed form with the given files. -/
def uploadEnv (files : List (String × List FileHeader)) (parts : List PartRead) : Env :=
  { exampleEnv with
    PayloadDataCollection := [⟨"Form", "<script>"⟩, ⟨"Upload", ".php"⟩]
    ParseMediaType := fun _ => ("multipart/form-data", "X")
    ParseMultipartForm := fun req => (some ⟨files⟩, req.Form)
    MultipartParts := fun _ _ => parts }

/-! # Theorems -/

/-! ## Lemmas -/

theorem Flow.next_of_fall {β : Type} (a b : Flow β) (h : a.outcome = .ok none) :
    a.next b = ⟨b.outcome, a.trace ++ b.trace⟩ := by
  simp [Flow.next, h]

theorem Flow.next_of_ret {β : Type} (a b : Flow β) (v : β) (h : a.outcome = .ok (some v)) :
    a.next b = a := by
  simp [Flow.next, h]

theorem Flow.next_of_panic {β : Type} (a b : Flow β) (p : Panic) (h : a.outcome = .error p) :
    a.next b = a := by
  simp [Flow.next, h]

theorem tryPayload_outcome (E : Env) (t : Nat) (v : String) (p : PayloadData) :
    (tryPayload E t v p).outcome = .ok (if hits E v p then some (matchedResult t p) else none) := rfl

theorem tryPayload_trace (E : Env) (t : Nat) (v : String) (p : PayloadData) :
    (tryPayload E t v p).trace = [.isMatch p.Payload v] := rfl

/-- A pattern loop with a first match at index `k`: it returns that rule and
has called the matcher on the rules up to `k` only. -/
theorem patternLoop_first (E : Env) (t : Nat) (v : String) :
    ∀ (ps : List PayloadData) (k : Nat) (p : PayloadData), ps[k]? = some p → hits E v p = true →
      (∀ j q, j < k → ps[j]? = some q → hits E v q = false) →
      forRange ps (tryPayload E t v) =
        ⟨.ok (some (matchedResult t p)), (ps.take (k + 1)).map fun q => .isMatch q.Payload v⟩
  | [], k, p, h, _, _ => by simp at h
  | q :: ps, 0, p, h, hp, _ => by
    simp at h
    subst h
    rw [forRange, Flow.next_of_ret _ _ (matchedResult t q)]
    · simp [tryPayload, hits] at hp ⊢
      simp [hp, matchedResult]
    · simp [tryPayload_outcome, hp]
  | q :: ps, k + 1, p, h, hp, hlt => by
    have hq : hits E v q = false := hlt 0 q (Nat.succ_pos k) (by simp)
    have ih := patternLoop_first E t v ps k p (by simpa using h) hp
      (fun j q2 hj hq2 => hlt (j + 1) q2 (Nat.succ_lt_succ hj) (by simpa using hq2))
    rw [forRange, Flow.next_of_fall _ _ (by simp [tryPayload_outcome, hq]), ih]
    simp [tryPayload_trace]

/-- A pattern loop without a match falls through after calling the matcher on every rule. -/
theorem patternLoop_none (E : Env) (t : Nat) (v : String) :
    ∀ (ps : List PayloadData), (∀ p ∈ ps, hits E v p = false) →
      forRange ps (tryPayload E t v) = ⟨.ok none, ps.map fun q => .isMatch q.Payload v⟩
  | [], _ => rfl
  | q :: ps, h => by
    have hq : hits E v q = false := h q (by simp)
    have ih := patternLoop_none E t v ps (fun p hp => h p (by simp [hp]))
    rw [forRange, Flow.next_of_fall _ _ (by simp [tryPayload_outcome, hq]), ih]
    simp [tryPayload_trace]

/-- The outcome of a pattern loop: the first rule that matches, if any. -/
theorem patternLoop_outcome (E : Env) (t : Nat) (v : String) :
    ∀ (ps : List PayloadData),
      (forRange ps (tryPayload E t v)).outcome = .ok ((ps.find? (hits E v)).map (matchedResult t))
  | [] => rfl
  | q :: ps => by
    cases hq : hits E v q
    · rw [forRange, Flow.next_of_fall _ _ (by simp [tryPayload_outcome, hq])]
      simp [List.find?, hq, patternLoop_outcome E t v ps]
    · rw [forRange, Flow.next_of_ret _ _ (matchedResult t q) (by simp [tryPayload_outcome, hq])]
      simp [List.find?, hq, tryPayload_outcome]

theorem Flow.orReturn_value {β : Type} (a : Flow β) (last : β) :
    (a.orReturn last).value =
      match a.outcome with
      | .ok none => .ok last
      | .ok (some b) => .ok b
      | .error p => .error p := by
  unfold Flow.orReturn
  split <;> simp_all

theorem Flow.orReturn_trace {β : Type} (a : Flow β) (last : β) :
    (a.orReturn last).trace = a.trace := by
  unfold Flow.orReturn
  split <;> rfl

/-- A function whose body is one pattern loop: its value is the first rule that
matches, if any, and never a panic. -/
theorem patternLoop_orReturn_value (E : Env) (t : Nat) (v : String) (ps : List PayloadData) :
    ((forRange ps (tryPayload E t v)).orReturn (NewMatchResult none false)).value =
      .ok (resultOfHit t (ps.find? (hits E v))) := by
  rw [Flow.orReturn_value, patternLoop_outcome]
  cases ps.find? (hits E v) <;> rfl

theorem resultOfHit_unmatched_iff (t : Nat) (hit : Option PayloadData) :
    ((resultOfHit t hit).IsMatched = false ∧ (resultOfHit t hit).MatchedPayload = none) ↔
      hit = none := by
  cases hit <;> simp [resultOfHit, matchedResult, NewMatchResult, MatchResult.Time]

theorem resultOfHit_isMatched (t : Nat) (hit : Option PayloadData) :
    (resultOfHit t hit).IsMatched = hit.isSome := by
  cases hit <;> simp [resultOfHit, matchedResult, NewMatchResult, MatchResult.Time]

theorem find?_hits_eq_none_iff (E : Env) (v : String) (ps : List PayloadData) :
    ps.find? (hits E v) = none ↔ ∀ p ∈ ps, hits E v p = false := by
  simp [List.find?_eq_none]

theorem patternLoop_orReturn_unmatched_iff (E : Env) (t : Nat) (v : String)
    (ps : List PayloadData) :
    ∃ m, ((forRange ps (tryPayload E t v)).orReturn (NewMatchResult none false)).value = .ok m ∧
      ((m.IsMatched = false ∧ m.MatchedPayload = none) ↔ ∀ p ∈ ps, hits E v p = false) := by
  rw [patternLoop_orReturn_value]
  exact ⟨_, rfl, (resultOfHit_unmatched_iff t _).trans (find?_hits_eq_none_iff E v ps)⟩

theorem Flow.next_outcome {β : Type} (a b : Flow β) :
    (a.next b).outcome =
      match a.outcome with
      | .ok none => b.outcome
      | o => o := by
  unfold Flow.next
  split <;> simp_all

theorem Result.andThen_outcome {γ β : Type} (r : Result γ) (k : γ → Flow β) :
    (r.andThen k).outcome =
      match r.value with
      | .error p => .error p
      | .ok v => (k v).outcome := by
  unfold Result.andThen
  split <;> simp_all

/-- The step of the two child loops of the JSON traversal, once the child's
value is known. -/
theorem jsonChild_outcome (res : Result MatchResult) (rest : Flow MatchResult) (t : Nat)
    (hit : Option PayloadData) (h : res.value = .ok (resultOfHit t hit)) :
    ((res.andThen fun m => if m.IsMatched then Flow.ret m else Flow.fall).next rest).outcome =
      if hit.isSome then .ok (hit.map (matchedResult t)) else rest.outcome := by
  rw [Flow.next_outcome, Result.andThen_outcome, h]
  cases hit <;>
    simp [resultOfHit, matchedResult, NewMatchResult, MatchResult.Time, Flow.ret, Flow.fall]

mutual
/-- The JSON traversal on a null-free value: never a panic, and the matched
result of the first rule that matches the first string leaf any rule matches. -/
theorem isJSONValueHitPolicy_value (E : Env) (t : Nat) (ps : List PayloadData) :
    ∀ v : JSONValue, nullFree v = true →
      (isJSONValueHitPolicy E t ps v).value =
        .ok (resultOfHit t (firstLeafHit E ps (stringLeaves v)))
  | .null, h => by simp [nullFree] at h
  | .bool _, _ => by simp [isJSONValueHitPolicy, stringLeaves, firstLeafHit, resultOfHit]
  | .number _, _ => by simp [isJSONValueHitPolicy, stringLeaves, firstLeafHit, resultOfHit]
  | .string s, _ => by
    rw [isJSONValueHitPolicy, patternLoop_orReturn_value E t (E.UnEscapeRawValue s) ps]
    congr 2
    simp only [stringLeaves, firstLeafHit, List.findSome?]
    cases ps.find? (hits E (E.UnEscapeRawValue s)) <;> rfl
  | .array elems, h => by
    rw [isJSONValueHitPolicy, Flow.orReturn_value,
      rangeArray_outcome E t ps elems (by simpa [nullFree] using h)]
    simp only [stringLeaves]
    cases firstLeafHit E ps (stringLeavesElems elems) <;> rfl
  | .object entries, h => by
    rw [isJSONValueHitPolicy, Flow.orReturn_value,
      rangeObject_outcome E t ps entries (by simpa [nullFree] using h)]
    simp only [stringLeaves]
    cases firstLeafHit E ps (stringLeavesEntries entries) <;> rfl
/-- The loop over the elements of a null-free list. -/
theorem rangeArray_outcome (E : Env) (t : Nat) (ps : List PayloadData) :
    ∀ elems : List JSONValue, nullFreeElems elems = true →
      (rangeArray E t ps elems).outcome =
        .ok ((firstLeafHit E ps (stringLeavesElems elems)).map (matchedResult t))
  | [], _ => rfl
  | v :: rest, h => by
    have hv : nullFree v = true ∧ nullFreeElems rest = true := by simpa [nullFreeElems] using h
    rw [rangeArray, jsonChild_outcome _ _ t _ (isJSONValueHitPolicy_value E t ps v hv.1),
      rangeArray_outcome E t ps rest hv.2]
    simp only [stringLeavesElems, firstLeafHit, List.findSome?_append]
    cases List.findSome? (fun s => ps.find? (hits E (E.UnEscapeRawValue s))) (stringLeaves v) <;>
      simp
/-- The loop over the values of a null-free mapping. -/
theorem rangeObject_outcome (E : Env) (t : Nat) (ps : List PayloadData) :
    ∀ entries : List (String × JSONValue), nullFreeEntries entries = true →
      (rangeObject E t ps entries).outcome =
        .ok ((firstLeafHit E ps (stringLeavesEntries entries)).map (matchedResult t))
  | [], _ => rfl
  | (_, v) :: rest, h => by
    have hv : nullFree v = true ∧ nullFreeEntries rest = true := by
      simpa [nullFreeEntries] using h
    rw [rangeObject, jsonChild_outcome _ _ t _ (isJSONValueHitPolicy_value E t ps v hv.1),
      rangeObject_outcome E t ps rest hv.2]
    simp only [stringLeavesEntries, firstLeafHit, List.findSome?_append]
    cases List.findSome? (fun s => ps.find? (hits E (E.UnEscapeRawValue s))) (stringLeaves v) <;>
      simp
end

/-- Where `find?` finds its element: at the least index that satisfies the test. -/
theorem find?_some_index {α : Type} (f : α → Bool) :
    ∀ (l : List α) (a : α), l.find? f = some a →
      ∃ k : Nat, l[k]? = some a ∧ f a = true ∧ ∀ (j : Nat) b, j < k → l[j]? = some b → f b = false
  | [], a, h => by simp at h
  | x :: xs, a, h => by
    cases hx : f x
    · rw [List.find?, hx] at h
      obtain ⟨k, hk, ha, hlt⟩ := find?_some_index f xs a h
      refine ⟨k + 1, by simpa using hk, ha, ?_⟩
      intro j b hj hb
      cases j with
      | zero =>
        simp at hb
        rw [← hb]
        exact hx
      | succ j => exact hlt j b (Nat.lt_of_succ_lt_succ hj) (by simpa using hb)
    · rw [List.find?, hx] at h
      simp at h
      subst h
      exact ⟨0, by simp, hx, fun j b hj _ => absurd hj (Nat.not_lt_zero j)⟩

/-- Where `findSome?` finds its value: at the least index that yields one. -/
theorem findSome?_some_index {α β : Type} (f : α → Option β) :
    ∀ (l : List α) (b : β), l.findSome? f = some b →
      ∃ (i : Nat) (a : α), l[i]? = some a ∧ f a = some b ∧ ∀ (j : Nat) c, j < i → l[j]? = some c → f c = none
  | [], b, h => by simp at h
  | x :: xs, b, h => by
    cases hx : f x with
    | none =>
      rw [List.findSome?, hx] at h
      obtain ⟨i, a, hi, ha, hlt⟩ := findSome?_some_index f xs b h
      refine ⟨i + 1, a, by simpa using hi, ha, ?_⟩
      intro j c hj hc
      cases j with
      | zero =>
        simp at hc
        rw [← hc]
        exact hx
      | succ j => exact hlt j c (Nat.lt_of_succ_lt_succ hj) (by simpa using hc)
    | some y =>
      rw [List.findSome?, hx] at h
      simp at h
      subst h
      exact ⟨0, x, by simp, hx, fun j c hj _ => absurd hj (Nat.not_lt_zero j)⟩

theorem firstLeafHit_isSome_iff (E : Env) (ps : List PayloadData) (leaves : List String) :
    (firstLeafHit E ps leaves).isSome = true ↔
      ∃ s ∈ leaves, ∃ p ∈ ps, hits E (E.UnEscapeRawValue s) p = true := by
  unfold firstLeafHit
  rw [List.findSome?_isSome_iff]
  constructor
  · rintro ⟨s, hs, h⟩
    rw [List.find?_isSome] at h
    obtain ⟨p, hp, hhit⟩ := h
    exact ⟨s, hs, p, hp, hhit⟩
  · rintro ⟨s, hs, p, hp, hhit⟩
    exact ⟨s, hs, by rw [List.find?_isSome]; exact ⟨p, hp, hhit⟩⟩

theorem Flow.noPanic_next {β : Type} {a b : Flow β} (ha : a.NoPanic) (hb : b.NoPanic) :
    (a.next b).NoPanic := by
  intro p
  rw [Flow.next_outcome]
  split
  · exact hb p
  · exact ha p

theorem forRange_noPanic {α β : Type} (body : α → Flow β) :
    ∀ xs : List α, (∀ x ∈ xs, (body x).NoPanic) → (forRange xs body).NoPanic
  | [], _ => by intro p; simp [forRange, Flow.fall]
  | x :: xs, h =>
    Flow.noPanic_next (h x (by simp))
      (forRange_noPanic body xs fun y hy => h y (by simp [hy]))

theorem Flow.returnsOnly_next {β : Type} {S : β → Prop} {a b : Flow β}
    (ha : a.ReturnsOnly S) (hb : b.ReturnsOnly S) : (a.next b).ReturnsOnly S := by
  intro v
  rw [Flow.next_outcome]
  split
  · exact hb v
  · exact ha v

theorem forRange_returnsOnly {α β : Type} {S : β → Prop} (body : α → Flow β) :
    ∀ xs : List α, (∀ x ∈ xs, (body x).ReturnsOnly S) → (forRange xs body).ReturnsOnly S
  | [], _ => by intro v; simp [forRange, Flow.fall]
  | x :: xs, h =>
    Flow.returnsOnly_next (h x (by simp))
      (forRange_returnsOnly body xs fun y hy => h y (by simp [hy]))

/-- A loop one of whose bodies does not fall through does not fall through. -/
theorem forRange_not_fall {α β : Type} (body : α → Flow β) :
    ∀ xs : List α, (∃ x ∈ xs, (body x).outcome ≠ .ok none) →
      (forRange xs body).outcome ≠ .ok none
  | [], h => by simp at h
  | x :: xs, h => by
    rw [forRange, Flow.next_outcome]
    split
    · rename_i hx
      obtain ⟨y, hy, hne⟩ := h
      rcases List.mem_cons.mp hy with rfl | hy
      · exact absurd hx hne
      · exact forRange_not_fall body xs ⟨y, hy, hne⟩
    · rename_i hx
      exact fun hc => hx hc

theorem Flow.next_trace_mem {β : Type} {a b : Flow β} {e : Event}
    (h : e ∈ (a.next b).trace) : e ∈ a.trace ∨ e ∈ b.trace := by
  unfold Flow.next at h
  split at h
  · simpa using h
  · exact Or.inl h

/-- Every call a loop makes is made by one of its bodies. -/
theorem forRange_trace_mem {α β : Type} (body : α → Flow β) (e : Event) :
    ∀ xs : List α, e ∈ (forRange xs body).trace → ∃ x ∈ xs, e ∈ (body x).trace
  | [], h => by simp [forRange, Flow.fall] at h
  | x :: xs, h => by
    rcases Flow.next_trace_mem h with h | h
    · exact ⟨x, by simp, h⟩
    · obtain ⟨y, hy, he⟩ := forRange_trace_mem body e xs h
      exact ⟨y, by simp [hy], he⟩

theorem tryPayload_noPanic (E : Env) (t : Nat) (v : String) (p : PayloadData) :
    (tryPayload E t v p).NoPanic := by
  intro q
  simp [tryPayload_outcome]

theorem patternLoop_noPanic (E : Env) (t : Nat) (v : String) (ps : List PayloadData) :
    (forRange ps (tryPayload E t v)).NoPanic :=
  forRange_noPanic _ ps fun p _ => tryPayload_noPanic E t v p

theorem patternLoop_returnsOnly (E : Env) (t : Nat) (v : String) (ps : List PayloadData) :
    (forRange ps (tryPayload E t v)).ReturnsOnly fun m => ∃ q ∈ ps, m = matchedResult t q := by
  refine forRange_returnsOnly _ ps fun p hp m hm => ?_
  rw [tryPayload_outcome] at hm
  cases hh : hits E v p
  · simp [hh] at hm
  · simp [hh] at hm
    exact ⟨p, hp, hm.symm⟩

theorem patternLoop_not_fall (E : Env) (t : Nat) (v : String) (ps : List PayloadData)
    (p : PayloadData) (hp : p ∈ ps) (hhit : hits E v p = true) :
    (forRange ps (tryPayload E t v)).outcome ≠ .ok none :=
  forRange_not_fall _ ps ⟨p, hp, by simp [tryPayload_outcome, hhit]⟩

theorem uploadLoop_noPanic (E : Env) (r : Checker) (form : MultipartForm) :
    (uploadLoop E r form).NoPanic :=
  forRange_noPanic _ _ fun _ _ => forRange_noPanic _ _ fun _ _ => patternLoop_noPanic E _ _ _

theorem uploadLoop_returnsOnly (E : Env) (r : Checker) (form : MultipartForm) :
    (uploadLoop E r form).ReturnsOnly fun m => ∃ q, isUploadRule E q ∧ m = matchedResult r.time q := by
  refine forRange_returnsOnly _ _ fun _ _ => forRange_returnsOnly _ _ fun fh _ => ?_
  intro m hm
  obtain ⟨q, hq, rfl⟩ := patternLoop_returnsOnly E r.time _ _ m hm
  simp only [Filter, List.mem_filter, decide_eq_true_eq] at hq
  exact ⟨q, hq, rfl⟩

theorem uploadLoop_not_fall (E : Env) (r : Checker) (form : MultipartForm)
    (fileHeader : FileHeader) (hfile : form.hasFile fileHeader) (p : PayloadData)
    (hp : isUploadRule E p) (hhit : hits E (filepathExt fileHeader.Filename) p = true) :
    (uploadLoop E r form).outcome ≠ .ok none := by
  obtain ⟨key, files, hmem, hfh⟩ := hfile
  refine forRange_not_fall _ _ ⟨(key, files), hmem, forRange_not_fall _ _ ⟨fileHeader, hfh, ?_⟩⟩
  refine patternLoop_not_fall E r.time _ _ p ?_ hhit
  simp only [Filter, List.mem_filter, decide_eq_true_eq]
  exact hp

theorem uploadLoop_trace_mem (E : Env) (r : Checker) (form : MultipartForm) (e : Event)
    (he : e ∈ (uploadLoop E r form).trace) :
    ∃ fileHeader q, form.hasFile fileHeader ∧ isUploadRule E q ∧
      e = .isMatch q.Payload (filepathExt fileHeader.Filename) := by
  obtain ⟨entry, hentry, he⟩ := forRange_trace_mem _ e _ he
  obtain ⟨fh, hfh, he⟩ := forRange_trace_mem _ e _ he
  obtain ⟨q, hq, he⟩ := forRange_trace_mem _ e _ he
  simp only [Filter, List.mem_filter, decide_eq_true_eq] at hq
  rw [tryPayload_trace] at he
  exact ⟨fh, q, ⟨entry.1, entry.2, hentry, hfh⟩, hq, by simpa using he⟩

theorem Flow.noPanic_fall {β : Type} : (Flow.fall : Flow β).NoPanic := by
  intro p; simp [Flow.fall]

theorem Flow.noPanic_ret {β : Type} (b : β) : (Flow.ret b).NoPanic := by
  intro p; simp [Flow.ret]

theorem Flow.noPanic_emit {β : Type} (e : Event) : (Flow.emit e : Flow β).NoPanic := by
  intro p; simp [Flow.emit]

theorem formLoop_noPanic (E : Env) (r : Checker) (payloads : List PayloadData)
    (params : Values) : (formLoop E r payloads params).NoPanic := by
  refine forRange_noPanic _ _ fun entry _ => Flow.noPanic_next (patternLoop_noPanic E _ _ _) ?_
  refine forRange_noPanic _ _ fun value _ => Flow.noPanic_next (Flow.noPanic_emit _) ?_
  split
  · exact Flow.noPanic_fall
  · exact Flow.noPanic_next (patternLoop_noPanic E _ _ _) (Flow.noPanic_ret _)

theorem Flow.orReturn_ok_of_noPanic {β : Type} (a : Flow β) (last : β) (h : a.NoPanic) :
    ∃ m, (a.orReturn last).value = .ok m := by
  rw [Flow.orReturn_value]
  cases ho : a.outcome with
  | error p => exact absurd ho (h p)
  | ok o => cases o <;> simp

/-- A media type that starts with application/json does not start with
multipart/form-data. -/
theorem json_not_multipart (mediaType : String)
    (h : stringsHasPrefixOf mediaType "application/json" = true) :
    stringsHasPrefixOf mediaType "multipart/form-data" = false := by
  unfold stringsHasPrefixOf at h ⊢
  rw [decide_eq_true_eq] at h
  rw [decide_eq_false_iff_not]
  intro hm
  obtain ⟨t, ht⟩ := h
  obtain ⟨u, hu⟩ := hm
  have h1 : "application/json".data = 'a' :: "pplication/json".data := rfl
  have h2 : "multipart/form-data".data = 'm' :: "ultipart/form-data".data := rfl
  rw [h1] at ht
  rw [h2, ← ht] at hu
  simp at hu

theorem Result.andThen_trace_mem {γ β : Type} {r : Result γ} {k : γ → Flow β} {e : Event}
    (h : e ∈ (r.andThen k).trace) : e ∈ r.trace ∨ ∃ v, r.value = .ok v ∧ e ∈ (k v).trace := by
  unfold Result.andThen at h
  split at h
  · exact Or.inl h
  · rename_i v hv
    rcases List.mem_append.mp h with h | h
    · exact Or.inl h
    · exact Or.inr ⟨v, hv, h⟩

theorem patternLoop_trace_isMatcher (E : Env) (t : Nat) (v : String) (ps : List PayloadData)
    (e : Event) (he : e ∈ (forRange ps (tryPayload E t v)).trace) : e.isMatcher = true := by
  obtain ⟨p, _, he⟩ := forRange_trace_mem _ e ps he
  rw [tryPayload_trace] at he
  simp at he
  subst he
  rfl

theorem jsonChild_trace_mem {res : Result MatchResult} {rest : Flow MatchResult} {e : Event}
    (h : e ∈ ((res.andThen fun m => if m.IsMatched then Flow.ret m else Flow.fall).next
      rest).trace) : e ∈ res.trace ∨ e ∈ rest.trace := by
  rcases Flow.next_trace_mem h with h | h
  · rcases Result.andThen_trace_mem h with h | ⟨v, _, h⟩
    · exact Or.inl h
    · split at h <;> simp [Flow.ret, Flow.fall] at h
  · exact Or.inr h

mutual
/-- The JSON traversal calls nothing but the pattern matcher. -/
theorem isJSONValueHitPolicy_trace (E : Env) (t : Nat) (ps : List PayloadData) (e : Event) :
    ∀ v : JSONValue, e ∈ (isJSONValueHitPolicy E t ps v).trace → e.isMatcher = true
  | .null, h => by simp [isJSONValueHitPolicy] at h
  | .bool _, h => by simp [isJSONValueHitPolicy] at h
  | .number _, h => by simp [isJSONValueHitPolicy] at h
  | .string s, h => by
    rw [isJSONValueHitPolicy, Flow.orReturn_trace] at h
    exact patternLoop_trace_isMatcher E t _ ps e h
  | .array elems, h => by
    rw [isJSONValueHitPolicy, Flow.orReturn_trace] at h
    exact rangeArray_trace E t ps e elems h
  | .object entries, h => by
    rw [isJSONValueHitPolicy, Flow.orReturn_trace] at h
    exact rangeObject_trace E t ps e entries h
/-- The loop over the elements of a list calls nothing but the pattern matcher. -/
theorem rangeArray_trace (E : Env) (t : Nat) (ps : List PayloadData) (e : Event) :
    ∀ elems : List JSONValue, e ∈ (rangeArray E t ps elems).trace → e.isMatcher = true
  | [], h => by simp [rangeArray, Flow.fall] at h
  | v :: rest, h => by
    rw [rangeArray] at h
    rcases jsonChild_trace_mem h with h | h
    · exact isJSONValueHitPolicy_trace E t ps e v h
    · exact rangeArray_trace E t ps e rest h
/-- The loop over the values of a mapping calls nothing but the pattern matcher. -/
theorem rangeObject_trace (E : Env) (t : Nat) (ps : List PayloadData) (e : Event) :
    ∀ entries : List (String × JSONValue),
      e ∈ (rangeObject E t ps entries).trace → e.isMatcher = true
  | [], h => by simp [rangeObject, Flow.fall] at h
  | (_, v) :: rest, h => by
    rw [rangeObject] at h
    rcases jsonChild_trace_mem h with h | h
    · exact isJSONValueHitPolicy_trace E t ps e v h
    · exact rangeObject_trace E t ps e rest h
end

theorem uploadLoop_trace_isMatcher (E : Env) (r : Checker) (form : MultipartForm) (e : Event)
    (he : e ∈ (uploadLoop E r form).trace) : e.isMatcher = true := by
  obtain ⟨_, _, _, _, rfl⟩ := uploadLoop_trace_mem E r form e he
  rfl

theorem partsLoop_trace_isMatcher (E : Env) (r : Checker) (payloads : List PayloadData)
    (parts : List PartRead) (e : Event) (he : e ∈ (partsLoop E r payloads parts).trace) :
    e.isMatcher = true := by
  obtain ⟨part, _, he⟩ := forRange_trace_mem _ e parts he
  cases part with
  | failed => simp [Flow.panic] at he
  | part content => exact patternLoop_trace_isMatcher E r.time _ payloads e he

theorem formLoop_trace_isMatcher (E : Env) (r : Checker) (payloads : List PayloadData)
    (params : Values) (e : Event) (he : e ∈ (formLoop E r payloads params).trace) :
    e.isMatcher = true := by
  obtain ⟨entry, _, he⟩ := forRange_trace_mem _ e params he
  rcases Flow.next_trace_mem he with he | he
  · exact patternLoop_trace_isMatcher E r.time _ payloads e he
  · obtain ⟨value, _, he⟩ := forRange_trace_mem _ e _ he
    rcases Flow.next_trace_mem he with he | he
    · simp [Flow.emit] at he
      subst he
      rfl
    · split at he
      · simp [Flow.fall] at he
      · rcases Flow.next_trace_mem he with he | he
        · exact patternLoop_trace_isMatcher E r.time _ payloads e he
        · simp [Flow.ret] at he

theorem handleForm_trace_isMatcher (E : Env) (r : Checker) (payloads : List PayloadData)
    (e : Event) (he : e ∈ (handleForm E r payloads).trace) : e.isMatcher = true := by
  unfold handleForm at he
  split at he
  · simp at he
  · rename_i transfer _
    simp only [Flow.orReturn_trace] at he
    rcases Flow.next_trace_mem he with he | he
    · split at he
      · simp only at he
        split at he
        · rcases Flow.next_trace_mem he with he | he
          · exact uploadLoop_trace_isMatcher E r _ e he
          · exact partsLoop_trace_isMatcher E r payloads _ e he
        · simp [Flow.fall] at he
      · split at he
        · simp only at he
          split at he
          · simp [Flow.panic] at he
          · rcases Result.andThen_trace_mem he with he | ⟨v, _, he⟩
            · exact isJSONValueHitPolicy_trace E r.time payloads e _ he
            · split at he <;> simp [Flow.ret, Flow.fall] at he
        · simp [Flow.fall] at he
    · exact formLoop_trace_isMatcher E r payloads _ e he

theorem handlePayload_trace_isMatcher (E : Env) (r : Checker) (key : String)
    (payloads : List PayloadData) (e : Event) (he : e ∈ (handlePayload E r key payloads).trace) :
    e.isMatcher = true := by
  unfold handlePayload at he
  split at he
  · rw [handleQuery, Flow.orReturn_trace] at he
    exact patternLoop_trace_isMatcher E r.time _ payloads e he
  · split at he
    · rw [handlePath, Flow.orReturn_trace] at he
      exact patternLoop_trace_isMatcher E r.time _ payloads e he
    · split at he
      · exact handleForm_trace_isMatcher E r payloads e he
      · split at he <;> simp at he

/-- Every call of a join is a call of one of the workers. -/
theorem joinWorkers_trace_mem {β : Type} (e : Event) :
    ∀ ws : List (Result β), e ∈ (joinWorkers ws).trace → ∃ w ∈ ws, e ∈ w.trace
  | [], h => by simp [joinWorkers] at h
  | w :: ws, h => by
    have h2 : e ∈ w.trace ++ (joinWorkers ws).trace := by
      unfold joinWorkers at h
      split at h <;> exact h
    rcases List.mem_append.mp h2 with h2 | h2
    · exact ⟨w, by simp, h2⟩
    · obtain ⟨w2, hw2, he⟩ := joinWorkers_trace_mem e ws h2
      exact ⟨w2, by simp [hw2], he⟩

/-- When the join returns, every worker has returned and its value is among the results. -/
theorem joinWorkers_ok_mem {β : Type} :
    ∀ (ws : List (Result β)) (vs : List β), (joinWorkers ws).value = .ok vs →
      ∀ w ∈ ws, ∃ v ∈ vs, w.value = .ok v
  | [], _, _ => by simp
  | w :: ws, vs, h => by
    unfold joinWorkers at h
    split at h
    · simp at h
    · simp at h
    · rename_i v vs2 hv hvs
      simp at h
      subst h
      intro w2 hw2
      rcases List.mem_cons.mp hw2 with rfl | hw2
      · exact ⟨v, by simp, hv⟩
      · obtain ⟨v2, hv2, hw⟩ := joinWorkers_ok_mem ws vs2 hvs w2 hw2
        exact ⟨v2, by simp [hv2], hw⟩

/-- The loop over the results of a phase: at the first matched result it
writes the block response, logs the result and returns true. -/
theorem blockLoop_eq {α : Type} (r : Checker) (matched : α → Bool) (log : α → Event) :
    ∀ results : List α,
      (forRange results fun i =>
        if matched i then
          (writeBlock r).next ((Flow.emit (log i)).next (Flow.ret true))
        else Flow.fall) =
      ⟨.ok (if results.any matched then some true else none),
       blockTrace r log (results.find? matched)⟩
  | [] => rfl
  | i :: rest => by
    rw [forRange]
    cases hi : matched i
    · rw [Flow.next_of_fall _ _ (by simp [Flow.fall]), blockLoop_eq r matched log rest]
      simp [hi, Flow.fall, List.find?]
    · simp [hi, List.find?, Flow.next, writeBlock, Flow.emit, Flow.ret, blockResponse, blockTrace]

theorem blockLoop_trace_response {α : Type} (r : Checker) (matched : α → Bool) (log : α → Event)
    (hlog : ∀ i, (log i).isResponse = false) (results : List α) :
    (blockTrace r log (results.find? matched)).filter Event.isResponse =
      if results.any matched then blockResponse r else [] := by
  cases h : results.find? matched with
  | none =>
    have : results.any matched = false := by
      rw [List.any_eq_false]
      intro x hx
      simpa using List.find?_eq_none.mp h x hx
    simp [this, blockTrace]
  | some i =>
    have : results.any matched = true := by
      rw [List.any_eq_true]
      exact ⟨i, List.mem_of_find?_eq_some h, List.find?_some h⟩
    have h1 : (Event.writeHeader 400).isResponse = true := rfl
    have h2 : (Event.write ("Bad Request. " ++ r.Request.URL.Path)).isResponse = true := rfl
    simp [this, blockTrace, blockResponse, List.filter, h1, h2, hlog i]

/-- The payload phase when its workers return before the deadline. -/
theorem handleWAFChecker_eq (E : Env) (r : Checker) (rs : List MatchResult)
    (hdl : E.payloadDeadline = false) (hrs : (payloadResults E r).value = .ok rs) :
    handleWAFChecker E r =
      ⟨.ok (rs.any fun m => m.IsMatched),
       (payloadResults E r).trace ++ (.println "true" ::
         blockTrace r Event.logMatchResult (rs.find? fun m => m.IsMatched))⟩ := by
  unfold handleWAFChecker
  have hloop := blockLoop_eq r (fun m : MatchResult => m.IsMatched) Event.logMatchResult rs
  simp only [Result.andThen, hrs, hdl, Bool.false_eq_true, if_false]
  rw [hloop]
  cases h : rs.any fun m => m.IsMatched <;>
    simp [Flow.next, Flow.emit, Flow.orReturn, h]

/-- The firewall phase when its workers return before the deadline. -/
theorem handleFirewallRuleChecker_eq (E : Env) (r : Checker) (fs : List FirewallMatchResult)
    (hdl : E.firewallDeadline = false) (hfs : (firewallResults E r).value = .ok fs) :
    handleFirewallRuleChecker E r =
      ⟨.ok (fs.any fun m => m.IsMatched),
       .getFirewallRules r.Target.ID :: ((firewallResults E r).trace ++ (.println "true" ::
         blockTrace r Event.logFirewallMatchResult (fs.find? fun m => m.IsMatched)))⟩ := by
  unfold handleFirewallRuleChecker
  have hloop :=
    blockLoop_eq r (fun m : FirewallMatchResult => m.IsMatched) Event.logFirewallMatchResult fs
  simp only [Result.andThen, hfs, hdl, Bool.false_eq_true, if_false]
  rw [hloop]
  cases h : fs.any fun m => m.IsMatched <;>
    simp [Flow.next, Flow.emit, Flow.orReturn, h]

theorem payloadResults_trace_isMatcher (E : Env) (r : Checker) (e : Event)
    (he : e ∈ (payloadResults E r).trace) : e.isMatcher = true := by
  obtain ⟨w, hw, he⟩ := joinWorkers_trace_mem e _ he
  obtain ⟨entry, _, rfl⟩ := List.mem_map.mp hw
  exact handlePayload_trace_isMatcher E r _ _ e he

theorem handleFirewallPayload_trace (E : Env) (r : Checker) (rule : FirewallRule)
    (facts : Facts) :
    (handleFirewallPayload E r rule facts).trace =
      .evaluate rule.Expression ::
        (match (E.Evaluate rule.Expression facts).2 with
          | some everr => [.println everr]
          | none => []) := by
  unfold handleFirewallPayload
  rcases h : (E.Evaluate rule.Expression facts).1 with _ | b | _ | _ | _
  · simp only [h]
  · cases b <;> simp only [h]
  · simp only [h]
  · simp only [h]
  · simp only [h]

theorem firewallResults_trace_not_response (E : Env) (r : Checker) (e : Event)
    (he : e ∈ (firewallResults E r).trace) : e.isResponse = false := by
  obtain ⟨w, hw, he⟩ := joinWorkers_trace_mem e _ he
  obtain ⟨rule, _, rfl⟩ := List.mem_map.mp hw
  rw [handleFirewallPayload_trace] at he
  rcases List.mem_cons.mp he with rfl | he2
  · rfl
  · split at he2
    · simp at he2
      subst he2
      rfl
    · simp at he2

/-- What `Handle` does once the request is eligible. -/
theorem Handle_eligible (E : Env) (r : Checker) (hwaf : r.Target.WAFEnabled = true)
    (hstatic : (decide (r.Request.Method = "GET") && IsStaticResource r.Request.URL.Path) = false) :
    Handle E r =
      (handleWAFChecker E (snapshot E r)).bind fun result =>
        if result then ⟨.ok true, []⟩ else handleFirewallRuleChecker E (snapshot E r) := by
  unfold Handle
  simp [hwaf, hstatic, snapshot]

/-- The static bypass: with the WAF disabled, or on a GET whose path passes
`IsStaticResource`, `Handle` returns false and calls nothing, whatever the
raw query is. -/
theorem Handle_bypass (E : Env) (r : Checker)
    (h : r.Target.WAFEnabled = false ∨
      (r.Request.Method = "GET" ∧ IsStaticResource r.Request.URL.Path = true)) :
    Handle E r = ⟨.ok false, []⟩ := by
  unfold Handle
  rcases h with h | ⟨h1, h2⟩
  · simp [h]
  · simp [h1, h2]

theorem Event.not_response_of_isMatcher (e : Event) (h : e.isMatcher = true) :
    e.isResponse = false := by
  cases e <;> first | rfl | simp [Event.isMatcher] at h

theorem Event.not_firewall_of_isMatcher (e : Event) (h : e.isMatcher = true) :
    e.isFirewall = false := by
  cases e <;> first | rfl | simp [Event.isMatcher] at h

theorem filter_eq_nil_of_forall {α : Type} (f : α → Bool) (l : List α)
    (h : ∀ x ∈ l, f x = false) : l.filter f = [] := by
  rw [List.filter_eq_nil_iff]
  intro x hx
  simp [h x hx]

/-- The response the payload phase writes: the block response when some
result is matched, nothing otherwise. -/
theorem handleWAFChecker_response (E : Env) (r : Checker) (rs : List MatchResult)
    (hdl : E.payloadDeadline = false) (hrs : (payloadResults E r).value = .ok rs) :
    (handleWAFChecker E r).trace.filter Event.isResponse =
      if rs.any (fun m => m.IsMatched) then blockResponse r else [] := by
  rw [handleWAFChecker_eq E r rs hdl hrs]
  simp only [List.filter_append]
  rw [filter_eq_nil_of_forall _ _ fun e he =>
    Event.not_response_of_isMatcher e (payloadResults_trace_isMatcher E r e he)]
  have hp : (Event.println "true").isResponse = false := rfl
  rw [List.filter_cons_of_neg (by simp [hp]), List.nil_append]
  exact blockLoop_trace_response r (fun m : MatchResult => m.IsMatched) Event.logMatchResult
    (fun _ => rfl) rs

/-- The payload phase makes no call of the firewall phase. -/
theorem handleWAFChecker_no_firewall (E : Env) (r : Checker) (rs : List MatchResult)
    (hdl : E.payloadDeadline = false) (hrs : (payloadResults E r).value = .ok rs) (e : Event)
    (he : e ∈ (handleWAFChecker E r).trace) : e.isFirewall = false := by
  rw [handleWAFChecker_eq E r rs hdl hrs] at he
  rcases List.mem_append.mp he with he | he
  · exact Event.not_firewall_of_isMatcher e (payloadResults_trace_isMatcher E r e he)
  · rcases List.mem_cons.mp he with rfl | he
    · rfl
    · cases hf : rs.find? fun m => m.IsMatched with
      | none => simp [hf, blockTrace] at he
      | some i =>
        simp [hf, blockTrace, blockResponse] at he
        rcases he with rfl | rfl | rfl <;> rfl

/-- The response the firewall phase writes. -/
theorem handleFirewallRuleChecker_response (E : Env) (r : Checker)
    (fs : List FirewallMatchResult) (hdl : E.firewallDeadline = false)
    (hfs : (firewallResults E r).value = .ok fs) :
    (handleFirewallRuleChecker E r).trace.filter Event.isResponse =
      if fs.any (fun m => m.IsMatched) then blockResponse r else [] := by
  rw [handleFirewallRuleChecker_eq E r fs hdl hfs]
  have hg : (Event.getFirewallRules r.Target.ID).isResponse = false := rfl
  have hp : (Event.println "true").isResponse = false := rfl
  rw [List.filter_cons_of_neg (by simp [hg]), List.filter_append,
    filter_eq_nil_of_forall _ _ fun e he => firewallResults_trace_not_response E r e he,
    List.filter_cons_of_neg (by simp [hp]), List.nil_append]
  exact blockLoop_trace_response r (fun m : FirewallMatchResult => m.IsMatched)
    Event.logFirewallMatchResult (fun _ => rfl) fs

theorem Result.bind_value {γ β : Type} (r : Result γ) (k : γ → Result β) (v : γ)
    (h : r.value = .ok v) : r.bind k = ⟨(k v).value, r.trace ++ (k v).trace⟩ := by
  simp [Result.bind, h]

theorem any_isMatched_false_iff (rs : List MatchResult) :
    rs.any (fun m => m.IsMatched) = false ↔ ∀ m ∈ rs, m.IsMatched = false := by
  simp [List.any_eq_false]

/-- `Handle` on an eligible request whose payload workers return in time with a matched result. -/
theorem Handle_payload_matched (E : Env) (r : Checker) (rs : List MatchResult)
    (hwaf : r.Target.WAFEnabled = true)
    (hstatic : (decide (r.Request.Method = "GET") && IsStaticResource r.Request.URL.Path) = false)
    (hdl : E.payloadDeadline = false)
    (hrs : (payloadResults E (snapshot E r)).value = .ok rs)
    (hany : rs.any (fun m => m.IsMatched) = true) :
    (Handle E r).value = .ok true ∧
    (Handle E r).trace.filter Event.isResponse = blockResponse r ∧
    ∀ e ∈ (Handle E r).trace, e.isFirewall = false := by
  have hW := handleWAFChecker_eq E (snapshot E r) rs hdl hrs
  have hH := Handle_eligible E r hwaf hstatic
  rw [Result.bind_value _ _ (rs.any fun m => m.IsMatched) (by rw [hW])] at hH
  simp only [hany, if_true, List.append_nil] at hH
  rw [hH]
  refine ⟨rfl, ?_, ?_⟩
  · have := handleWAFChecker_response E (snapshot E r) rs hdl hrs
    simpa [hany] using this
  · exact fun e he => handleWAFChecker_no_firewall E (snapshot E r) rs hdl hrs e he

/-- `Handle` on an eligible request whose payload workers return in time
without a match and whose firewall workers return in time. -/
theorem Handle_payload_unmatched (E : Env) (r : Checker) (rs : List MatchResult)
    (fs : List FirewallMatchResult) (hwaf : r.Target.WAFEnabled = true)
    (hstatic : (decide (r.Request.Method = "GET") && IsStaticResource r.Request.URL.Path) = false)
    (hdl : E.payloadDeadline = false)
    (hrs : (payloadResults E (snapshot E r)).value = .ok rs)
    (hany : rs.any (fun m => m.IsMatched) = false)
    (hfdl : E.firewallDeadline = false)
    (hfs : (firewallResults E (snapshot E r)).value = .ok fs) :
    (Handle E r).value = .ok (fs.any fun m => m.IsMatched) ∧
    (Handle E r).trace.filter Event.isResponse =
      if fs.any (fun m => m.IsMatched) then blockResponse r else [] := by
  have hW := handleWAFChecker_eq E (snapshot E r) rs hdl hrs
  have hF := handleFirewallRuleChecker_eq E (snapshot E r) fs hfdl hfs
  have hH := Handle_eligible E r hwaf hstatic
  rw [Result.bind_value _ _ (rs.any fun m => m.IsMatched) (by rw [hW])] at hH
  simp only [hany, Bool.false_eq_true, if_false] at hH
  rw [hH]
  refine ⟨by rw [hF], ?_⟩
  rw [List.filter_append, handleWAFChecker_response E (snapshot E r) rs hdl hrs,
    handleFirewallRuleChecker_response E (snapshot E r) fs hfdl hfs]
  simp [hany]
  rfl

/-- A rule whose evaluation does not yield a bool makes its worker panic. -/
theorem handleFirewallPayload_panics (E : Env) (r : Checker) (rule : FirewallRule)
    (facts : Facts) (h : ∀ b, (E.Evaluate rule.Expression facts).1 ≠ .bool b) :
    (handleFirewallPayload E r rule facts).value = .error .typeAssertion := by
  unfold handleFirewallPayload
  rcases hv : (E.Evaluate rule.Expression facts).1 with _ | b | _ | _ | _
  · simp only [hv]
  · exact absurd hv (h b)
  · simp only [hv]
  · simp only [hv]
  · simp only [hv]

/-! ## C1: Query match blocks the request -/

/-- C1, as the code has it: on a request to a WAF-enabled target that is not a
GET for a static-resource path, whose payload workers all return before the
deadline, and whose unescaped raw query matches a rule of the Query group,
Handle returns true and writes status 400 and the body "Bad Request. "
followed by the path, and nothing else, to the response. -/
theorem Handle_blocks_matching_query (E : Env) (r : Checker) (rs : List MatchResult)
    (payloads : List PayloadData) (p : PayloadData) (hwaf : r.Target.WAFEnabled = true)
    (hstatic : (decide (r.Request.Method = "GET") && IsStaticResource r.Request.URL.Path) = false)
    (hdl : E.payloadDeadline = false)
    (hrs : (payloadResults E (snapshot E r)).value = .ok rs)
    (hgroup : ("Query", payloads) ∈ E.CheckPointPayloadData) (hp : p ∈ payloads)
    (hhit : hits E (E.UnEscapeRawValue r.Request.URL.RawQuery) p = true) :
    (Handle E r).value = .ok true ∧
    (Handle E r).trace.filter Event.isResponse =
      [.writeHeader 400, .write ("Bad Request. " ++ r.Request.URL.Path)] := by
  have hw : handlePayload E (snapshot E r) "Query" payloads ∈
      E.CheckPointPayloadData.map fun entry => handlePayload E (snapshot E r) entry.1 entry.2 :=
    List.mem_map.mpr ⟨("Query", payloads), hgroup, rfl⟩
  obtain ⟨m, hm, hval⟩ := joinWorkers_ok_mem _ rs hrs _ hw
  have hq : handlePayload E (snapshot E r) "Query" payloads =
      handleQuery E (snapshot E r) payloads := by simp [handlePayload]
  rw [hq, handleQuery, patternLoop_orReturn_value] at hval
  have hfound : (payloads.find? (hits E (E.UnEscapeRawValue r.Request.URL.RawQuery))).isSome :=
    List.find?_isSome.mpr ⟨p, hp, hhit⟩
  have hmm : m.IsMatched = true := by
    have : m = resultOfHit (snapshot E r).time
        (payloads.find? (hits E (E.UnEscapeRawValue r.Request.URL.RawQuery))) := by
      have := Except.ok.inj hval
      exact this.symm
    rw [this, resultOfHit_isMatched]
    exact hfound
  have hany : rs.any (fun m => m.IsMatched) = true := List.any_eq_true.mpr ⟨m, hm, hmm⟩
  obtain ⟨hv, ht, _⟩ := Handle_payload_matched E r rs hwaf hstatic hdl hrs hany
  exact ⟨hv, ht⟩

/-- C1, worked example: a POST to /login with the query user=evil and a Query
rule for evil is blocked with status 400 and the body "Bad Request. /login". -/
theorem Handle_blocks_matching_query_witness :
    (Handle (configuredEnv [("Path", [⟨"Path", "/admin"⟩]), ("Query", [⟨"Query", "evil"⟩])] []
        exampleEnv)
      (NewRequestChecker (exampleRequest "POST" "/login" "user=evil" "" "") exampleTarget 0)).value =
      .ok true ∧
    (Handle (configuredEnv [("Path", [⟨"Path", "/admin"⟩]), ("Query", [⟨"Query", "evil"⟩])] []
        exampleEnv)
      (NewRequestChecker (exampleRequest "POST" "/login" "user=evil" "" "") exampleTarget
        0)).trace.filter Event.isResponse =
      [.writeHeader 400, .write "Bad Request. /login"] :=
  Handle_blocks_matching_query
    (configuredEnv [("Path", [⟨"Path", "/admin"⟩]), ("Query", [⟨"Query", "evil"⟩])] [] exampleEnv)
    (NewRequestChecker (exampleRequest "POST" "/login" "user=evil" "" "") exampleTarget 0)
    [NewMatchResult none false, matchedResult 0 ⟨"Query", "evil"⟩]
    [⟨"Query", "evil"⟩] ⟨"Query", "evil"⟩ rfl (by decide) rfl (by decide) (by decide) (by decide)
    (by decide)

/-- C1, the claim fails: (1) a GET for /logo.png with the empty query and a
Query rule with the empty pattern, which matches every value: the static
bypass returns false before any rule is read; (2) a POST to /login with the
query user=evil, a Query rule for evil, a Form rule, the content type
application/json and a body that is not valid JSON: the Form worker panics
and Handle does not return. -/
theorem Handle_matching_query_not_blocked :
    (hits (configuredEnv [("Query", [⟨"Query", ""⟩])] [] exampleEnv)
        ((configuredEnv [("Query", [⟨"Query", ""⟩])] [] exampleEnv).UnEscapeRawValue "")
        ⟨"Query", ""⟩ = true ∧
      Handle (configuredEnv [("Query", [⟨"Query", ""⟩])] [] exampleEnv)
        (NewRequestChecker (exampleRequest "GET" "/logo.png" "" "" "") exampleTarget 0) =
        ⟨.ok false, []⟩) ∧
    (hits (configuredEnv [("Query", [⟨"Query", "evil"⟩]), ("Form", [⟨"Form", "<script>"⟩])] []
          (jsonEnv none))
        ((configuredEnv [("Query", [⟨"Query", "evil"⟩]), ("Form", [⟨"Form", "<script>"⟩])] []
          (jsonEnv none)).UnEscapeRawValue "user=evil")
        ⟨"Query", "evil"⟩ = true ∧
      (Handle
        (configuredEnv [("Query", [⟨"Query", "evil"⟩]), ("Form", [⟨"Form", "<script>"⟩])] []
          (jsonEnv none))
        (NewRequestChecker (exampleRequest "POST" "/login" "user=evil" "application/json" "[1,")
          exampleTarget 0)).value = .error .jsonUnmarshal) := by
  refine ⟨⟨by decide, by decide⟩, ⟨by decide, by decide⟩⟩

/-! ## C2: Blocked iff a worker matched -/

/-- C2: on a request that passes the eligibility check, with the payload
workers returning the results `rs` before the deadline and, when none of them
is matched, the firewall workers returning the results `fs` before the
deadline, Handle returns; it returns true exactly when a payload result or a
firewall result is matched; when a payload result is matched no firewall rule
is fetched or evaluated; when it returns false nothing is written to the
response, and when it returns true the block response is written. -/
theorem Handle_blocked_iff_worker_matched (E : Env) (r : Checker) (rs : List MatchResult)
    (fs : List FirewallMatchResult) (hwaf : r.Target.WAFEnabled = true)
    (hstatic : (decide (r.Request.Method = "GET") && IsStaticResource r.Request.URL.Path) = false)
    (hdl : E.payloadDeadline = false)
    (hrs : (payloadResults E (snapshot E r)).value = .ok rs)
    (hfw : (∀ m ∈ rs, m.IsMatched = false) →
      E.firewallDeadline = false ∧ (firewallResults E (snapshot E r)).value = .ok fs) :
    ∃ b, (Handle E r).value = .ok b ∧
      (b = true ↔ (∃ m ∈ rs, m.IsMatched = true) ∨ (∃ f ∈ fs, f.IsMatched = true)) ∧
      ((∃ m ∈ rs, m.IsMatched = true) → ∀ e ∈ (Handle E r).trace, e.isFirewall = false) ∧
      (b = false → (Handle E r).trace.filter Event.isResponse = []) ∧
      (b = true → (Handle E r).trace.filter Event.isResponse =
        [.writeHeader 400, .write ("Bad Request. " ++ r.Request.URL.Path)]) := by
  cases hany : rs.any fun m => m.IsMatched
  · have hall := (any_isMatched_false_iff rs).mp hany
    obtain ⟨hfdl, hfs⟩ := hfw hall
    obtain ⟨hv, ht⟩ := Handle_payload_unmatched E r rs fs hwaf hstatic hdl hrs hany hfdl hfs
    refine ⟨_, hv, ?_, ?_, ?_, ?_⟩
    · rw [List.any_eq_true]
      constructor
      · rintro ⟨f, hf, hm⟩
        exact Or.inr ⟨f, hf, hm⟩
      · rintro (⟨m, hm, hmm⟩ | ⟨f, hf, hm⟩)
        · rw [hall m hm] at hmm
          exact absurd hmm (by simp)
        · exact ⟨f, hf, hm⟩
    · rintro ⟨m, hm, hmm⟩
      rw [hall m hm] at hmm
      exact absurd hmm (by simp)
    · intro hb
      rw [ht, hb]
      rfl
    · intro hb
      rw [ht, hb]
      rfl
  · obtain ⟨hv, ht, hnf⟩ := Handle_payload_matched E r rs hwaf hstatic hdl hrs hany
    refine ⟨true, hv, ?_, fun _ => hnf, fun hb => absurd hb (by simp), fun _ => ht⟩
    rw [List.any_eq_true] at hany
    obtain ⟨m, hm, hmm⟩ := hany
    exact ⟨fun _ => Or.inl ⟨m, hm, hmm⟩, fun _ => rfl⟩

/-- C2, worked example: a DELETE request that no payload rule matches and that
the firewall rule on the method matches is blocked. -/
theorem Handle_blocked_iff_worker_matched_witness :
    (Handle
      (configuredEnv [("Query", [⟨"Query", "evil"⟩]), ("Path", [⟨"Path", "/admin"⟩])]
        [⟨7, 1, "http.method == \"DELETE\""⟩] exampleEnv)
      (NewRequestChecker (exampleRequest "DELETE" "/items" "id=3" "" "") exampleTarget 0)).value =
      .ok true := by
  obtain ⟨b, hb, hiff, _⟩ := Handle_blocked_iff_worker_matched
    (configuredEnv [("Query", [⟨"Query", "evil"⟩]), ("Path", [⟨"Path", "/admin"⟩])]
      [⟨7, 1, "http.method == \"DELETE\""⟩] exampleEnv)
    (NewRequestChecker (exampleRequest "DELETE" "/items" "id=3" "" "") exampleTarget 0)
    [NewMatchResult none false, NewMatchResult none false]
    [(NewFirewallMatchResult (some ⟨7, 1, "http.method == \"DELETE\""⟩) true).Time 0]
    rfl (by decide) rfl (by decide) (fun _ => ⟨rfl, by decide⟩)
  rw [hb, hiff.mpr (Or.inr ⟨_, List.mem_singleton.mpr rfl, rfl⟩)]

/-! ## C3: Static bypass -/

/-- C3, the code at the failing input: a GET for /static/app.js with the query
id=evil, which the Query rule for evil matches, is passed without a single
call, because `IsStaticResource` looks for the question mark in the path, where
the query is not; the same request sent as a POST is blocked. -/
theorem Handle_static_bypass_ignores_query :
    hits (configuredEnv [("Query", [⟨"Query", "evil"⟩])] [] exampleEnv)
      ((configuredEnv [("Query", [⟨"Query", "evil"⟩])] [] exampleEnv).UnEscapeRawValue "id=evil")
      ⟨"Query", "evil"⟩ = true ∧
    Handle (configuredEnv [("Query", [⟨"Query", "evil"⟩])] [] exampleEnv)
      (NewRequestChecker (exampleRequest "GET" "/static/app.js" "id=evil" "" "") exampleTarget 0) =
      ⟨.ok false, []⟩ ∧
    (Handle (configuredEnv [("Query", [⟨"Query", "evil"⟩])] [] exampleEnv)
      (NewRequestChecker (exampleRequest "POST" "/static/app.js" "id=evil" "" "") exampleTarget
        0)).value = .ok true := by
  refine ⟨by decide, ?_, by decide⟩
  exact Handle_bypass _ _ (Or.inr ⟨rfl, by decide⟩)

/-! ## C4: First match wins in handleQuery and handlePath -/

/-- C4: handleQuery (against the unescaped raw query) and handlePath (against
the request path) return the matched result of the rule at the least index k
that matches, having called the matcher on the rules at indices 0..k only, and
they return the unmatched result without a rule exactly when no rule of the
list matches. -/
theorem handleQuery_handlePath_first_match (E : Env) (r : Checker)
    (payloads : List PayloadData) :
    (∀ k p, payloads[k]? = some p →
      hits E (E.UnEscapeRawValue r.Request.URL.RawQuery) p = true →
      (∀ j q, j < k → payloads[j]? = some q →
        hits E (E.UnEscapeRawValue r.Request.URL.RawQuery) q = false) →
      handleQuery E r payloads =
        ⟨.ok (matchedResult r.time p),
         (payloads.take (k + 1)).map fun q =>
           .isMatch q.Payload (E.UnEscapeRawValue r.Request.URL.RawQuery)⟩) ∧
    (∃ m, (handleQuery E r payloads).value = .ok m ∧
      ((m.IsMatched = false ∧ m.MatchedPayload = none) ↔
        ∀ p ∈ payloads, hits E (E.UnEscapeRawValue r.Request.URL.RawQuery) p = false)) ∧
    (∀ k p, payloads[k]? = some p →
      hits E r.Request.URL.Path p = true →
      (∀ j q, j < k → payloads[j]? = some q → hits E r.Request.URL.Path q = false) →
      handlePath E r payloads =
        ⟨.ok (matchedResult r.time p),
         (payloads.take (k + 1)).map fun q => .isMatch q.Payload r.Request.URL.Path⟩) ∧
    (∃ m, (handlePath E r payloads).value = .ok m ∧
      ((m.IsMatched = false ∧ m.MatchedPayload = none) ↔
        ∀ p ∈ payloads, hits E r.Request.URL.Path p = false)) := by
  refine ⟨?_, ?_, ?_, ?_⟩
  · intro k p hk hp hlt
    unfold handleQuery
    rw [patternLoop_first E r.time _ payloads k p hk hp hlt]
    rfl
  · exact patternLoop_orReturn_unmatched_iff E r.time _ payloads
  · intro k p hk hp hlt
    unfold handlePath
    rw [patternLoop_first E r.time _ payloads k p hk hp hlt]
    rfl
  · exact patternLoop_orReturn_unmatched_iff E r.time _ payloads

/-- C4, worked example: with the rules select, evil, user and the query
user=evil, handleQuery reports the rule evil at index 1 after two matcher
calls; the rule user at index 2, which would match too, is not tried. -/
theorem handleQuery_handlePath_first_match_witness :
    handleQuery exampleEnv
      (NewRequestChecker (exampleRequest "POST" "/login" "user=evil" "" "") exampleTarget 0)
      [⟨"Query", "select"⟩, ⟨"Query", "evil"⟩, ⟨"Query", "user"⟩] =
      ⟨.ok (matchedResult 0 ⟨"Query", "evil"⟩),
       [.isMatch "select" "user=evil", .isMatch "evil" "user=evil"]⟩ :=
  (handleQuery_handlePath_first_match exampleEnv
    (NewRequestChecker (exampleRequest "POST" "/login" "user=evil" "" "") exampleTarget 0)
    [⟨"Query", "select"⟩, ⟨"Query", "evil"⟩, ⟨"Query", "user"⟩]).1 1 ⟨"Query", "evil"⟩ rfl
    (by decide) (by
      intro j q hj hq
      have hj0 : j = 0 := by omega
      subst hj0
      simp at hq
      subst hq
      decide)

/-! ## C5: JSON traversal -/

/-- C5: on every parsed JSON value without null, at any depth, and every rule
list, isJSONValueHitPolicy returns a result (it is a total function and does
not panic); the result is matched exactly when some string leaf, unescaped,
matches some rule; a matched result carries the rule at the least index that
matches the first leaf, in visiting order, that any rule matches; an unmatched
result carries no rule. -/
theorem isJSONValueHitPolicy_matches_string_leaf (E : Env) (time : Nat)
    (payloads : List PayloadData) (value : JSONValue) (h : nullFree value = true) :
    ∃ m, (isJSONValueHitPolicy E time payloads value).value = .ok m ∧
      (m.IsMatched = true ↔
        ∃ s ∈ stringLeaves value, ∃ p ∈ payloads, hits E (E.UnEscapeRawValue s) p = true) ∧
      (m.IsMatched = true →
        ∃ (i : Nat) (s : String) (k : Nat) (p : PayloadData), (stringLeaves value)[i]? = some s ∧ payloads[k]? = some p ∧
          hits E (E.UnEscapeRawValue s) p = true ∧
          (∀ (j : Nat) q, j < k → payloads[j]? = some q →
            hits E (E.UnEscapeRawValue s) q = false) ∧
          (∀ (j : Nat) s2, j < i → (stringLeaves value)[j]? = some s2 →
            ∀ q ∈ payloads, hits E (E.UnEscapeRawValue s2) q = false) ∧
          m = matchedResult time p) ∧
      (m.IsMatched = false → m = NewMatchResult none false) := by
  refine ⟨_, isJSONValueHitPolicy_value E time payloads value h, ?_, ?_, ?_⟩
  · rw [resultOfHit_isMatched, firstLeafHit_isSome_iff]
  · intro hm
    rw [resultOfHit_isMatched] at hm
    obtain ⟨p, hp⟩ := Option.isSome_iff_exists.mp hm
    obtain ⟨i, s, hi, hs, hlt⟩ := findSome?_some_index _ _ p hp
    obtain ⟨k, hk, hhit, hklt⟩ := find?_some_index _ _ p hs
    refine ⟨i, s, k, p, hi, hk, hhit, hklt, ?_, ?_⟩
    · intro j s2 hj hs2 q hq
      exact (find?_hits_eq_none_iff E _ payloads).mp (hlt j s2 hj hs2) q hq
    · rw [hp]
      rfl
  · intro hm
    rw [resultOfHit_isMatched] at hm
    cases hh : firstLeafHit E payloads (stringLeaves value) with
    | none => rfl
    | some p => simp [hh] at hm

/-- C5, worked example: the value of the body a: b: ["<script>"] (a mapping in
a mapping in a list) with a Form rule for <script> is matched. -/
theorem isJSONValueHitPolicy_matches_string_leaf_witness :
    ∃ m, (isJSONValueHitPolicy exampleEnv 0 [⟨"Form", "<script>"⟩]
        (.object [("a", .object [("b", .array [.number "1", .string "<script>"])])])).value =
        .ok m ∧ m.IsMatched = true := by
  obtain ⟨m, hm, hiff, _⟩ := isJSONValueHitPolicy_matches_string_leaf exampleEnv 0
    [⟨"Form", "<script>"⟩]
    (.object [("a", .object [("b", .array [.number "1", .string "<script>"])])]) (by decide)
  exact ⟨m, hm, hiff.mpr ⟨"<script>", by decide, ⟨"Form", "<script>"⟩, by decide, by decide⟩⟩

/-! ## C6: Form fields -/

/-- C6, the code at the failing inputs: with the Form rule evil, the field a
with the values x and evil is not matched, because the loop over the values
returns after the first value that is not a short digit token; and the
fields a=x, b=evil are matched or not depending on which the loop visits
first. -/
theorem handleForm_returns_after_first_value :
    (handleForm (formEnv [("a", ["x", "evil"])])
      (snapshot (formEnv [("a", ["x", "evil"])])
        (NewRequestChecker
          (exampleRequest "POST" "/comment" "" "application/x-www-form-urlencoded" "a=x&a=evil")
          exampleTarget 0))
      [⟨"Form", "evil"⟩]).value = .ok (NewMatchResult none false) ∧
    (handleForm (formEnv [("a", ["x"]), ("b", ["evil"])])
      (snapshot (formEnv [("a", ["x"]), ("b", ["evil"])])
        (NewRequestChecker
          (exampleRequest "POST" "/comment" "" "application/x-www-form-urlencoded" "a=x&b=evil")
          exampleTarget 0))
      [⟨"Form", "evil"⟩]).value = .ok (NewMatchResult none false) ∧
    (handleForm (formEnv [("b", ["evil"]), ("a", ["x"])])
      (snapshot (formEnv [("b", ["evil"]), ("a", ["x"])])
        (NewRequestChecker
          (exampleRequest "POST" "/comment" "" "application/x-www-form-urlencoded" "a=x&b=evil")
          exampleTarget 0))
      [⟨"Form", "evil"⟩]).value = .ok (matchedResult 0 ⟨"Form", "evil"⟩) := by
  refine ⟨by decide, by decide, by decide⟩

/-! ## C7: Upload extension check -/

/-- C7: on a multipart/form-data request whose parsed form holds a file whose
extension matches a rule of the Upload checkpoint, handleForm returns the
matched result of an Upload rule, the same for every Form rule list (the
empty one included); the only calls it makes are matcher calls of Upload
rules on file extensions, so no part content is matched before it returns. -/
theorem handleForm_upload_extension_first (E : Env) (r : Checker) (transfer : requestTransfer)
    (form : MultipartForm) (fileHeader : FileHeader) (p : PayloadData)
    (hrt : r.requestTransfer = some transfer)
    (hmedia : stringsHasPrefixOf (E.ParseMediaType transfer.ContentType).1
      "multipart/form-data" = true)
    (hform : (E.ParseMultipartForm r.Request).1 = some form)
    (hfile : form.hasFile fileHeader) (hp : isUploadRule E p)
    (hhit : hits E (filepathExt fileHeader.Filename) p = true) :
    ∃ q, isUploadRule E q ∧
      ∀ payloads : List PayloadData,
        (handleForm E r payloads).value = .ok (matchedResult r.time q) ∧
        (handleForm E r payloads).trace = (uploadLoop E r form).trace ∧
        ∀ e ∈ (handleForm E r payloads).trace,
          ∃ fh q2, form.hasFile fh ∧ isUploadRule E q2 ∧
            e = .isMatch q2.Payload (filepathExt fh.Filename) := by
  have hnf := uploadLoop_not_fall E r form fileHeader hfile p hp hhit
  have hnp := uploadLoop_noPanic E r form
  cases ho : (uploadLoop E r form).outcome with
  | error pn => exact absurd ho (hnp pn)
  | ok o =>
    cases o with
    | none => exact absurd ho hnf
    | some m =>
      obtain ⟨q, hq, rfl⟩ := uploadLoop_returnsOnly E r form m ho
      refine ⟨q, hq, fun payloads => ?_⟩
      have hF : handleForm E r payloads =
          ⟨.ok (matchedResult r.time q), (uploadLoop E r form).trace⟩ := by
        unfold handleForm
        simp only [hrt, hmedia, hform, if_true]
        rw [Flow.next_of_ret _ _ _ ho, Flow.next_of_ret _ _ _ ho]
        simp [Flow.orReturn, ho]
      rw [hF]
      exact ⟨rfl, rfl, fun e he => uploadLoop_trace_mem E r form e he⟩

/-- C7, worked example: a multipart request with the file shell.php and an
Upload rule for .php is matched on that rule, with no Form rule at all and
even when reading the parts would fail. -/
theorem handleForm_upload_extension_first_witness :
    (handleForm (uploadEnv [("file", [⟨"notes.txt"⟩, ⟨"shell.php"⟩])] [.failed])
      (snapshot (uploadEnv [("file", [⟨"notes.txt"⟩, ⟨"shell.php"⟩])] [.failed])
        (NewRequestChecker
          (exampleRequest "POST" "/upload" "" "multipart/form-data; boundary=X" "--X")
          exampleTarget 0)) []).value =
      .ok (matchedResult 0 ⟨"Upload", ".php"⟩) := by
  obtain ⟨q, hq, h⟩ := handleForm_upload_extension_first
    (uploadEnv [("file", [⟨"notes.txt"⟩, ⟨"shell.php"⟩])] [.failed])
    (snapshot (uploadEnv [("file", [⟨"notes.txt"⟩, ⟨"shell.php"⟩])] [.failed])
      (NewRequestChecker
        (exampleRequest "POST" "/upload" "" "multipart/form-data; boundary=X" "--X")
        exampleTarget 0))
    ⟨"--X", "multipart/form-data; boundary=X"⟩ ⟨[("file", [⟨"notes.txt"⟩, ⟨"shell.php"⟩])]⟩
    ⟨"shell.php"⟩ ⟨"Upload", ".php"⟩ (by decide) (by decide) rfl
    ⟨"file", [⟨"notes.txt"⟩, ⟨"shell.php"⟩], by decide, by decide⟩ ⟨by decide, rfl⟩ (by decide)
  have hq2 : q = ⟨"Upload", ".php"⟩ := by
    obtain ⟨hmem, hcp⟩ := hq
    simp only [uploadEnv, List.mem_cons, List.mem_singleton, List.not_mem_nil, or_false] at hmem
    rcases hmem with rfl | rfl
    · exact absurd hcp (by decide)
    · rfl
  rw [← hq2]
  exact (h []).1

/-! ## C8: JSON errors -/

/-- C8, as the code has it: on a request whose media type starts with
application/json, handleForm panics with the unmarshal error when the body
is not valid JSON; when the body is valid JSON without null it returns a
result: the matched result of the traversal, or else what the loop over the
form fields returns. -/
theorem handleForm_json_panics_or_returns (E : Env) (r : Checker) (transfer : requestTransfer)
    (payloads : List PayloadData) (hrt : r.requestTransfer = some transfer)
    (hmedia : stringsHasPrefixOf (E.ParseMediaType transfer.ContentType).1
      "application/json" = true) :
    (E.Unmarshal transfer.BodyBuffer = none →
      (handleForm E r payloads).value = .error .jsonUnmarshal) ∧
    (∀ params, E.Unmarshal transfer.BodyBuffer = some params → nullFree params = true →
      (∃ m, (handleForm E r payloads).value = .ok m) ∧
      ((∃ s ∈ stringLeaves params, ∃ p ∈ payloads, hits E (E.UnEscapeRawValue s) p = true) →
        ∃ m, (handleForm E r payloads).value = .ok m ∧ m.IsMatched = true)) := by
  have hnm := json_not_multipart _ hmedia
  constructor
  · intro hnone
    unfold handleForm
    simp [hrt, hnm, hmedia, hnone, Flow.panic, Flow.next, Flow.orReturn]
  · intro params hsome hnf
    have hval := isJSONValueHitPolicy_value E r.time payloads params hnf
    have hF : handleForm E r payloads =
        ((((isJSONValueHitPolicy E r.time payloads params).andThen fun result =>
            if result.IsMatched then Flow.ret result else Flow.fall).next
          (formLoop E r payloads r.Request.Form)).orReturn (NewMatchResult none false)) := by
      unfold handleForm
      simp [hrt, hnm, hmedia, hsome]
    have houtcome := jsonChild_outcome _ (formLoop E r payloads r.Request.Form) r.time _ hval
    constructor
    · rw [hF]
      refine Flow.orReturn_ok_of_noPanic _ _ fun p => ?_
      rw [houtcome]
      split
      · simp
      · exact formLoop_noPanic E r payloads _ p
    · intro hleaf
      have hsomeHit := (firstLeafHit_isSome_iff E payloads (stringLeaves params)).mpr hleaf
      obtain ⟨q, hq⟩ := Option.isSome_iff_exists.mp hsomeHit
      rw [hF, Flow.orReturn_value, houtcome, hq]
      exact ⟨matchedResult r.time q, by simp, rfl⟩

/-- C8, worked example: the body `[1, "<script>"]` is valid JSON without null;
handleForm returns a result, here a matched one. -/
theorem handleForm_json_panics_or_returns_witness :
    ∃ m, (handleForm (jsonEnv (some (.array [.number "1", .string "<script>"])))
      (snapshot (jsonEnv (some (.array [.number "1", .string "<script>"])))
        (NewRequestChecker
          (exampleRequest "POST" "/api" "" "application/json" "[1, \"<script>\"]")
          exampleTarget 0))
      [⟨"Form", "<script>"⟩]).value = .ok m ∧ m.IsMatched = true :=
  ((handleForm_json_panics_or_returns
      (jsonEnv (some (.array [.number "1", .string "<script>"])))
      (snapshot (jsonEnv (some (.array [.number "1", .string "<script>"])))
        (NewRequestChecker
          (exampleRequest "POST" "/api" "" "application/json" "[1, \"<script>\"]")
          exampleTarget 0))
      ⟨"[1, \"<script>\"]", "application/json"⟩ [⟨"Form", "<script>"⟩] (by decide)
      (by decide)).2
    (.array [.number "1", .string "<script>"]) rfl (by decide)).2
    ⟨"<script>", by decide, ⟨"Form", "<script>"⟩, by decide, by decide⟩

/-- C8, the claim fails: with the content type application/json and the body
`[1,`, which is not valid JSON, handleForm panics instead of returning the
unmatched result. -/
theorem handleForm_invalid_json_panics :
    (handleForm (jsonEnv none)
      (snapshot (jsonEnv none)
        (NewRequestChecker (exampleRequest "POST" "/api" "" "application/json" "[1,")
          exampleTarget 0))
      [⟨"Form", "<script>"⟩]).value = .error .jsonUnmarshal ∧
    ¬ ∃ m, (handleForm (jsonEnv none)
      (snapshot (jsonEnv none)
        (NewRequestChecker (exampleRequest "POST" "/api" "" "application/json" "[1,")
          exampleTarget 0))
      [⟨"Form", "<script>"⟩]).value = .ok m := by
  constructor
  · decide
  · rintro ⟨m, hm⟩
    have h : (handleForm (jsonEnv none)
      (snapshot (jsonEnv none)
        (NewRequestChecker (exampleRequest "POST" "/api" "" "application/json" "[1,")
          exampleTarget 0))
      [⟨"Form", "<script>"⟩]).value = .error .jsonUnmarshal := by decide
    rw [h] at hm
    exact absurd hm (by simp)

/-! ## C9: Failing firewall rule -/

/-- C9, the code at the failing inputs: for the malformed expression
`http.method ==` the evaluator returns nil and an error, for `1 + 2` a
number; in both cases the worker panics on the type assertion instead of
sending an unmatched result, and with it Handle. -/
theorem handleFirewallPayload_failing_rule_panics :
    (handleFirewallPayload exampleEnv
      (NewRequestChecker (exampleRequest "GET" "/items" "" "" "") exampleTarget 0)
      ⟨7, 1, "http.method =="⟩
      (mapForFwRules exampleEnv
        (NewRequestChecker (exampleRequest "GET" "/items" "" "" "") exampleTarget 0))).value =
      .error .typeAssertion ∧
    (handleFirewallPayload exampleEnv
      (NewRequestChecker (exampleRequest "GET" "/items" "" "" "") exampleTarget 0)
      ⟨8, 1, "1 + 2"⟩
      (mapForFwRules exampleEnv
        (NewRequestChecker (exampleRequest "GET" "/items" "" "" "") exampleTarget 0))).value =
      .error .typeAssertion ∧
    (Handle (configuredEnv [] [⟨7, 1, "http.method =="⟩] exampleEnv)
      (NewRequestChecker (exampleRequest "GET" "/items" "" "" "") exampleTarget 0)).value =
      .error .typeAssertion := by
  refine ⟨?_, ?_, by decide⟩
  · exact handleFirewallPayload_panics _ _ _ _ (by decide)
  · exact handleFirewallPayload_panics _ _ _ _ (by decide)

/-! ## C10: The le operator -/

/-- C10: with a string expression operand and an int or string variable
operand, le returns true exactly when both operands parse as integers
(strconv.Atoi, 64-bit) and the variable is at most the expression; when an
operand does not parse it returns false; it never panics. -/
theorem le_true_iff_both_parse_and_le (e : String) (variableData : Value)
    (hv : (∃ n, variableData = .int n) ∨ (∃ s, variableData = .str s)) :
    (operators.le (.str e) variableData = .ok true ↔
      ∃ ei vi, operators.operandInt (.str e) = some ei ∧
        operators.operandInt variableData = some vi ∧ vi ≤ ei) ∧
    ((operators.operandInt (.str e) = none ∨ operators.operandInt variableData = none) →
      operators.le (.str e) variableData = .ok false) ∧
    (∃ b, operators.le (.str e) variableData = .ok b) := by
  rcases hv with ⟨n, rfl⟩ | ⟨s, rfl⟩
  · cases he : (Atoi e).2 with
    | none => simp [operators.le, operators.operandInt, he]
    | some err => simp [operators.le, operators.operandInt, he]
  · cases he : (Atoi e).2 with
    | none =>
      cases hs : (Atoi s).2 with
      | none => simp [operators.le, operators.operandInt, he, hs]
      | some err => simp [operators.le, operators.operandInt, he, hs]
    | some err => simp [operators.le, operators.operandInt, he]

/-- C10, worked examples: expression "10" with the int 5 gives true, with the
string "abc" gives false, and with the string "7" gives true. -/
theorem le_true_iff_both_parse_and_le_witness :
    operators.le (.str "10") (.int 5) = .ok true ∧
    operators.le (.str "10") (.str "abc") = .ok false ∧
    operators.le (.str "10") (.str "7") = .ok true :=
  ⟨(le_true_iff_both_parse_and_le "10" (.int 5) (Or.inl ⟨5, rfl⟩)).1.mpr
      ⟨10, 5, by decide, by decide, by decide⟩,
   (le_true_iff_both_parse_and_le "10" (.str "abc") (Or.inr ⟨"abc", rfl⟩)).2.1
      (Or.inr (by decide)),
   (le_true_iff_both_parse_and_le "10" (.str "7") (Or.inr ⟨"7", rfl⟩)).1.mpr
      ⟨10, 7, by decide, by decide, by decide⟩⟩

end Guardian
